import Mathlib

/-!
# dockerutils

A shallow embedding of `dockerutils.go`, a thin wrapper around the Docker
engine client, together with the properties its specification states.

## Modelling

* The Docker engine client (`*client.Client`) is external to the package.  It is
  an arbitrary deterministic transition system `Engine` over an arbitrary state
  type `σ`: every request takes the engine state and returns a response and the
  next state.  The container, host, network and start-option types are
  parameters `C`, `H`, `N`, `S`: the wrapper only passes them through.
* Every request the wrapper sends is appended to a trace (`World.trace`), and so
  are reads and closes of response bodies, so that "which requests were made,
  in which order, with which arguments" is a statement about the final world.
* Go strings and byte slices are byte sequences (`Bytes`, bytes as naturals
  below 256).  Strings the wrapper never looks into (image references,
  container names and identifiers) are `String`.  A nil byte slice and an empty
  one are both `[]`: every slice the package returns is either nil or non-empty
  (`bytes.Buffer.Bytes` of a buffer nothing was written to is nil).
* A Go `error` result is `Option GoError`, `none` being `nil`.
* `context.Context` is passed through to the engine untouched and is not
  modelled; cancellation shows up as an engine or reader error.
* A response body (`io.ReadCloser`) is a `Stream`: the bytes it delivers, then
  either end-of-stream or a read error.  The end of the stream, or the error,
  is reported by a read that delivers no bytes.
* The library functions the wrapper calls (`json.Marshal`,
  `base64.URLEncoding`, `io.Copy`, `stdcopy.StdCopy`) belong to the Go standard
  library and to the Docker module.  They are written out here after their
  library sources, as functions of the whole input; the buffering of
  `StdCopy` (how many bytes one read delivers) is not modelled, so "consumed"
  means demultiplexed, not fetched into the buffer.
-/

set_option linter.dupNamespace false

namespace Dockerutils

/-! ## Data model -/

/-- Byte sequences: Go `string` and `[]byte` values. -/
abbrev Bytes := List Nat

/-- Go `error` values.  `engine` stands for any error produced by the Docker
client or by reading a response body; the other two are the errors
`stdcopy.StdCopy` creates itself. -/
inductive GoError where
  | engine (msg : String)
  | unrecognizedHeader (b : Nat)
  | daemonInStream (msg : Bytes)
  deriving DecidableEq, Repr

/-- The Docker type `types.AuthConfig`. -/
structure AuthConfig where
  Username : Bytes := []
  Password : Bytes := []
  Auth : Bytes := []
  Email : Bytes := []
  ServerAddress : Bytes := []
  IdentityToken : Bytes := []
  RegistryToken : Bytes := []
  deriving DecidableEq, Repr

/-- The Docker type `registry.AuthenticateOKBody`, the answer to a login. -/
structure AuthenticateOKBody where
  IdentityToken : String := ""
  Status : String := ""
  deriving DecidableEq, Repr

/-- The Docker type `types.ImagePullOptions` (its `PrivilegeFunc` callback,
which the wrapper leaves nil, is left out). -/
structure ImagePullOptions where
  All : Bool := false
  RegistryAuth : Bytes := []
  Platform : String := ""
  deriving DecidableEq, Repr

/-- The Docker type `types.ContainerLogsOptions`. -/
structure ContainerLogsOptions where
  ShowStdout : Bool := false
  ShowStderr : Bool := false
  Since : String := ""
  Until : String := ""
  Timestamps : Bool := false
  Follow : Bool := false
  Tail : String := ""
  Details : Bool := false
  deriving DecidableEq, Repr

/-- The Docker type `container.ContainerCreateCreatedBody`. -/
structure ContainerCreateCreatedBody where
  ID : String
  Warnings : List String := []
  deriving DecidableEq, Repr

/-- A response body: the bytes it delivers and how it ends (`none` is
end-of-stream, `some e` a read error). -/
structure Stream where
  data : Bytes
  err : Option GoError := none
  deriving DecidableEq, Repr

/-- The source type `RunConfig`.  The three pointer fields may be nil. -/
structure RunConfig (C H N S : Type) where
  ContainerConfig : Option C
  HostConfig : Option H
  NetConfig : Option N
  ContainerStartOptions : S

/-- The source type `LogsOutput`. -/
structure LogsOutput where
  Stdout : Bytes
  Stderr : Bytes
  deriving DecidableEq, Repr

/-- What the wrapper does to the outside world: the requests of the Docker
client API it can reach, and reads and closes of response bodies.
`BodyRead n` says that the caller consumed `n` bytes of the body before it
stopped reading; when `n` is less than the length of the body, it stopped
before the end of the stream.  `ContainerRemove` is a request of the client
API that the package's test sends and the wrapper never does. -/
inductive Event (C H N S : Type) where
  | RegistryLogin (auth : AuthConfig)
  | ImagePull (ref : String) (options : ImagePullOptions)
  | ContainerCreate (config : Option C) (hostConfig : Option H)
      (networkingConfig : Option N) (containerName : String)
  | ContainerStart (containerID : String) (options : S)
  | ContainerLogs (container : String) (options : ContainerLogsOptions)
  | ContainerRemove (containerID : String)
  | BodyRead (n : Nat)
  | BodyClose

/-- The Docker engine as seen through `*client.Client`: each request maps the
engine state to a response and a new engine state. -/
structure Engine (C H N S σ : Type) where
  RegistryLogin : σ → AuthConfig → Except GoError AuthenticateOKBody × σ
  ImagePull : σ → String → ImagePullOptions → Except GoError Stream × σ
  ContainerCreate : σ → Option C → Option H → Option N → String →
    Except GoError ContainerCreateCreatedBody × σ
  ContainerStart : σ → String → S → Option GoError × σ
  ContainerLogs : σ → String → ContainerLogsOptions → Except GoError Stream × σ

/-- The outside world: the engine state and the events so far. -/
structure World (C H N S σ : Type) where
  state : σ
  trace : List (Event C H N S)

/-- The source type `Client`: the embedded engine client and the stored
credentials. -/
structure Client (C H N S σ : Type) where
  Client : Engine C H N S σ
  authConfig : AuthConfig

variable {C H N S σ : Type}

/-- Source: `NewClient`.  The credentials start as the zero value. -/
def NewClient (cli : Engine C H N S σ) : Client C H N S σ :=
  { Client := cli, authConfig := {} }

/-! ## Library functions the wrapper calls

These functions belong to the Go standard library and to the Docker module, not
to the package.  Each is written after the library function it names, for the
library versions of the package's time (Go 1.12, Docker 18.x). -/

/-- Go `io.Copy(ioutil.Discard, r)`: reads `r` until end-of-stream or a read
error, drops the bytes, and returns their number and the read error. -/
def ioCopyDiscard (r : Stream) : Nat × Option GoError :=
  (r.data.length, r.err)

/-- The alphabet of Go `base64.URLEncoding`,
`ABCDEFGHIJKLMNOPQRSTUVWXYZabcdefghijklmnopqrstuvwxyz0123456789-_`,
as a function of the six-bit value. -/
def encodeURL (n : Nat) : Nat :=
  if n < 26 then 65 + n
  else if n < 52 then 97 + (n - 26)
  else if n < 62 then 48 + (n - 52)
  else if n = 62 then 45
  else 95

/-- Go `base64.URLEncoding.EncodeToString`: three bytes become four characters
of the URL alphabet, a final group of one or two bytes is padded with `=`
(byte 61). -/
def base64URLEncode : Bytes → Bytes
  | [] => []
  | [a] =>
    let val := a * 65536
    [encodeURL (val / 262144 % 64), encodeURL (val / 4096 % 64), 61, 61]
  | [a, b] =>
    let val := a * 65536 + b * 256
    [encodeURL (val / 262144 % 64), encodeURL (val / 4096 % 64),
      encodeURL (val / 64 % 64), 61]
  | a :: b :: c :: rest =>
    let val := a * 65536 + b * 256 + c
    [encodeURL (val / 262144 % 64), encodeURL (val / 4096 % 64),
      encodeURL (val / 64 % 64), encodeURL (val % 64)] ++ base64URLEncode rest

/-- Go `utf8.DecodeRuneInString`: the first rune of `s` and its width in bytes.
An invalid or truncated encoding gives `(0xFFFD, 1)`, the empty string
`(0xFFFD, 0)`. -/
def decodeRune : Bytes → Nat × Nat
  | [] => (0xFFFD, 0)
  | s0 :: t =>
    if s0 < 0x80 then (s0, 1)
    else if s0 < 0xC2 ∨ 0xF4 < s0 then (0xFFFD, 1)
    else
      let sz := if s0 < 0xE0 then 2 else if s0 < 0xF0 then 3 else 4
      let lo := if s0 = 0xE0 then 0xA0 else if s0 = 0xF0 then 0x90 else 0x80
      let hi := if s0 = 0xED then 0x9F else if s0 = 0xF4 then 0x8F else 0xBF
      if t.length + 1 < sz then (0xFFFD, 1)
      else
        match t with
        | [] => (0xFFFD, 1)
        | s1 :: t1 =>
          if s1 < lo ∨ hi < s1 then (0xFFFD, 1)
          else if sz ≤ 2 then (s0 % 32 * 64 + s1 % 64, 2)
          else
            match t1 with
            | [] => (0xFFFD, 1)
            | s2 :: t2 =>
              if s2 < 0x80 ∨ 0xBF < s2 then (0xFFFD, 1)
              else if sz ≤ 3 then
                (s0 % 16 * 4096 + s1 % 64 * 64 + s2 % 64, 3)
              else
                match t2 with
                | [] => (0xFFFD, 1)
                | s3 :: _ =>
                  if s3 < 0x80 ∨ 0xBF < s3 then (0xFFFD, 1)
                  else
                    (s0 % 8 * 262144 + s1 % 64 * 4096 + s2 % 64 * 64
                      + s3 % 64, 4)

/-- The digits `0123456789abcdef` of Go `encoding/json`. -/
def hexDigit (n : Nat) : Nat :=
  if n < 10 then 48 + n else 87 + n

/-- Go `encoding/json`, `htmlSafeSet`: the ASCII bytes written as they are,
which is every byte from space to DEL except `"`, `&`, `<`, `>` and `\`. -/
def htmlSafeSet (b : Nat) : Bool :=
  0x20 ≤ b && b < 0x80 && b != 34 && b != 38 && b != 60 && b != 62 && b != 92

/-- Go `encoding/json`, the escape written for an ASCII byte outside
`htmlSafeSet`, after the backslash. -/
def escapeASCII (b : Nat) : Bytes :=
  if b = 92 ∨ b = 34 then [b]
  else if b = 10 then [110]
  else if b = 13 then [114]
  else if b = 9 then [116]
  else [117, 48, 48, hexDigit (b / 16), hexDigit (b % 16)]

/-- Go `encoding/json`, the loop of `encodeState.string` with HTML escaping on:
the JSON text of the string `s` between the quotes.  `fuel` bounds the number
of runes; `s.length` is enough. -/
def encodeStringLoop : Nat → Bytes → Bytes
  | 0, _ => []
  | _ + 1, [] => []
  | fuel + 1, b :: rest =>
    if b < 0x80 then
      (if htmlSafeSet b then [b] else 92 :: escapeASCII b)
        ++ encodeStringLoop fuel rest
    else
      let r := decodeRune (b :: rest)
      if r.1 = 0xFFFD ∧ r.2 = 1 then
        [92, 117, 102, 102, 102, 100] ++ encodeStringLoop fuel rest
      else if r.1 = 0x2028 ∨ r.1 = 0x2029 then
        [92, 117, 50, 48, 50, hexDigit (r.1 % 16)]
          ++ encodeStringLoop fuel ((b :: rest).drop r.2)
      else
        (b :: rest).take r.2 ++ encodeStringLoop fuel ((b :: rest).drop r.2)

/-- Go `encoding/json`, `encodeState.string`: a string as a JSON string. -/
def encodeString (s : Bytes) : Bytes :=
  34 :: encodeStringLoop s.length s ++ [34]

/-- The fields of `types.AuthConfig` in declaration order, each with its JSON
key; every field is tagged `omitempty`. -/
def authConfigFields (a : AuthConfig) : List (Bytes × Bytes) :=
  [ ([117, 115, 101, 114, 110, 97, 109, 101], a.Username),
    ([112, 97, 115, 115, 119, 111, 114, 100], a.Password),
    ([97, 117, 116, 104], a.Auth),
    ([101, 109, 97, 105, 108], a.Email),
    ([115, 101, 114, 118, 101, 114, 97, 100, 100, 114, 101, 115, 115],
      a.ServerAddress),
    ([105, 100, 101, 110, 116, 105, 116, 121, 116, 111, 107, 101, 110],
      a.IdentityToken),
    ([114, 101, 103, 105, 115, 116, 114, 121, 116, 111, 107, 101, 110],
      a.RegistryToken) ]

/-- Go `encoding/json`, the struct encoder after the opening brace: the
members `"key":"value"` of the fields that are not empty, separated by commas.
`first` says that no member has been written yet. -/
def encodeMembers : Bool → List (Bytes × Bytes) → Bytes
  | _, [] => []
  | first, (k, v) :: fs =>
    if v = [] then encodeMembers first fs
    else
      (if first then [] else [44]) ++ (34 :: k ++ [34, 58]) ++ encodeString v
        ++ encodeMembers false fs

/-- The JSON text Go `json.Marshal` writes for a `types.AuthConfig`: an object
with the members of the fields that are not empty. -/
def marshalAuthConfig (a : AuthConfig) : Bytes :=
  123 :: encodeMembers true (authConfigFields a) ++ [125]

/-- Go `json.Marshal` at type `types.AuthConfig`.  It cannot fail at this
type. -/
def jsonMarshal (a : AuthConfig) : Except GoError Bytes :=
  .ok (marshalAuthConfig a)

/-- The result of `stdcopy.StdCopy`: the two destination buffers, the two
return values, and the part of the source after the point at which `StdCopy`
returned (empty when it returned because the source ended). -/
structure StdCopyResult where
  dstout : Bytes
  dsterr : Bytes
  written : Nat
  err : Option GoError
  unread : Bytes
  deriving DecidableEq, Repr

/-- Docker `stdcopy.StdCopy`, its loop over frames.  `buf` is what is left of
the source, `rerr` how the source ends.  A frame is an 8-byte header (stream
type, three unused bytes, big-endian payload size) and the payload.  Stream
types 0 (stdin) and 1 (stdout) go to `dstout`, 2 (stderr) to `dsterr`, 3
(systemerr) turns the payload into an error, anything else is an error.  A
source that ends inside a header or a payload ends the copy without an error.
`fuel` bounds the number of frames. -/
def stdCopyLoop : Nat → Bytes → Option GoError → Bytes → Bytes → Nat →
    StdCopyResult
  | 0, buf, _, dstout, dsterr, written => ⟨dstout, dsterr, written, none, buf⟩
  | fuel + 1, buf, rerr, dstout, dsterr, written =>
    if buf.length < 8 then
      match rerr with
      | none => ⟨dstout, dsterr, written, none, []⟩
      | some er => ⟨dstout, dsterr, 0, some er, []⟩
    else
      let stream := buf.getD 0 0
      if 3 < stream then
        ⟨dstout, dsterr, 0, some (.unrecognizedHeader stream), buf.drop 8⟩
      else
        let frameSize := buf.getD 4 0 * 16777216 + buf.getD 5 0 * 65536
          + buf.getD 6 0 * 256 + buf.getD 7 0
        if buf.length < frameSize + 8 then
          match rerr with
          | none => ⟨dstout, dsterr, written, none, []⟩
          | some er => ⟨dstout, dsterr, 0, some er, []⟩
        else
          let payload := (buf.drop 8).take frameSize
          let next := buf.drop (frameSize + 8)
          if stream = 3 then
            ⟨dstout, dsterr, written, some (.daemonInStream payload), next⟩
          else if stream = 2 then
            stdCopyLoop fuel next rerr dstout (dsterr ++ payload)
              (written + frameSize)
          else
            stdCopyLoop fuel next rerr (dstout ++ payload) dsterr
              (written + frameSize)

/-- Docker `stdcopy.StdCopy(dstout, dsterr, src)` on buffers holding `dstout`
and `dsterr`.  Every frame takes at least 8 bytes, so `src.data.length + 1`
rounds are enough. -/
def stdCopy (dstout dsterr : Bytes) (src : Stream) : StdCopyResult :=
  stdCopyLoop (src.data.length + 1) src.data src.err dstout dsterr 0

/-! ## The wrapper -/

/-- Source: `Client.Login`. -/
def Login (c : Client C H N S σ) (w : World C H N S σ)
    (server username password : Bytes) :
    Option GoError × Client C H N S σ × World C H N S σ :=
  let cfg : AuthConfig :=
    { Username := username, Password := password, ServerAddress := server }
  match c.Client.RegistryLogin w.state cfg with
  | (.error err, st) => (some err, c, ⟨st, w.trace ++ [.RegistryLogin cfg]⟩)
  | (.ok _, st) =>
    (none, { c with authConfig := cfg }, ⟨st, w.trace ++ [.RegistryLogin cfg]⟩)

/-- Source: `Client.Run`. -/
def Run (c : Client C H N S σ) (w : World C H N S σ)
    (cfg : RunConfig C H N S) (name : String) :
    (String × Option GoError) × Client C H N S σ × World C H N S σ :=
  let create : Event C H N S :=
    .ContainerCreate cfg.ContainerConfig cfg.HostConfig cfg.NetConfig name
  match c.Client.ContainerCreate w.state cfg.ContainerConfig cfg.HostConfig
      cfg.NetConfig name with
  | (.error err, st) => (("", some err), c, ⟨st, w.trace ++ [create]⟩)
  | (.ok containerResp, st) =>
    let start : Event C H N S :=
      .ContainerStart containerResp.ID cfg.ContainerStartOptions
    match c.Client.ContainerStart st containerResp.ID
        cfg.ContainerStartOptions with
    | (some err, st2) => (("", some err), c, ⟨st2, w.trace ++ [create, start]⟩)
    | (none, st2) =>
      ((containerResp.ID, none), c, ⟨st2, w.trace ++ [create, start]⟩)

/-- Source: `Client.RunExisting`. -/
def RunExisting (c : Client C H N S σ) (w : World C H N S σ)
    (cfg : RunConfig C H N S) (containerID : String) :
    Option GoError × Client C H N S σ × World C H N S σ :=
  match c.Client.ContainerStart w.state containerID
      cfg.ContainerStartOptions with
  | (err, st) =>
    (err, c, ⟨st, w.trace ++
      [.ContainerStart containerID cfg.ContainerStartOptions]⟩)

/-- Source: `Client.Create`. -/
def Create (c : Client C H N S σ) (w : World C H N S σ)
    (cfg : RunConfig C H N S) (name : String) :
    (String × Option GoError) × Client C H N S σ × World C H N S σ :=
  let create : Event C H N S :=
    .ContainerCreate cfg.ContainerConfig cfg.HostConfig cfg.NetConfig name
  match c.Client.ContainerCreate w.state cfg.ContainerConfig cfg.HostConfig
      cfg.NetConfig name with
  | (.error err, st) => (("", some err), c, ⟨st, w.trace ++ [create]⟩)
  | (.ok containerResp, st) =>
    ((containerResp.ID, none), c, ⟨st, w.trace ++ [create]⟩)

/-- Source: `Client.Pull`. -/
def Pull (c : Client C H N S σ) (w : World C H N S σ) (imageRef : String) :
    Option GoError × Client C H N S σ × World C H N S σ :=
  match jsonMarshal c.authConfig with
  | .error err => (some err, c, w)
  | .ok buf =>
    let encodedAuth := base64URLEncode buf
    let pullOpts : ImagePullOptions := { RegistryAuth := encodedAuth }
    match c.Client.ImagePull w.state imageRef pullOpts with
    | (.error err, st) =>
      (some err, c, ⟨st, w.trace ++ [.ImagePull imageRef pullOpts]⟩)
    | (.ok respBody, st) =>
      let copied := ioCopyDiscard respBody
      let w2 : World C H N S σ :=
        ⟨st, w.trace ++
          [.ImagePull imageRef pullOpts, .BodyRead copied.1, .BodyClose]⟩
      match copied.2 with
      | some err => (some err, c, w2)
      | none => (none, c, w2)

/-- Source: `Client.Logs`. -/
def Logs (c : Client C H N S σ) (w : World C H N S σ) (contID : String)
    (follow : Bool) :
    (Bytes × Bytes × Option GoError) × Client C H N S σ × World C H N S σ :=
  let opts : ContainerLogsOptions :=
    { ShowStdout := true, ShowStderr := true, Follow := follow }
  match c.Client.ContainerLogs w.state contID opts with
  | (.error err, st) =>
    (([], [], some err), c, ⟨st, w.trace ++ [.ContainerLogs contID opts]⟩)
  | (.ok logs, st) =>
    let r := stdCopy [] [] logs
    let w2 : World C H N S σ :=
      ⟨st, w.trace ++
        [.ContainerLogs contID opts,
          .BodyRead (logs.data.length - r.unread.length), .BodyClose]⟩
    match r.err with
    | some err => (([], [], some err), c, w2)
    | none => ((r.dstout, r.dsterr, none), c, w2)

/-- The pair `Create` then `RunExisting` as a caller drives it (the package's
test does so): `RunExisting` is called on the identifier `Create` returned,
unless `Create` failed.  The result is the identifier the caller got from
`Create` and the error of the step that ended the pair. -/
def CreateThenRunExisting (c : Client C H N S σ) (w : World C H N S σ)
    (cfg : RunConfig C H N S) (name : String) :
    (String × Option GoError) × Client C H N S σ × World C H N S σ :=
  match Create c w cfg name with
  | ((contID, some err), c1, w1) => ((contID, some err), c1, w1)
  | ((contID, none), c1, w1) =>
    match RunExisting c1 w1 cfg contID with
    | (err, c2, w2) => ((contID, err), c2, w2)

/-! ## Decoding the registry-auth value

What the receiving side does with the `RegistryAuth` value: the Docker daemon
reads it with Go `base64.URLEncoding` and `encoding/json` into a
`types.AuthConfig`.  These functions are not called by the package; they are
the decoders the round trip is stated with. -/

/-- The value of a character of the URL alphabet of Go `base64`. -/
def decodeURL (ch : Nat) : Option Nat :=
  if 65 ≤ ch ∧ ch ≤ 90 then some (ch - 65)
  else if 97 ≤ ch ∧ ch ≤ 122 then some (ch - 71)
  else if 48 ≤ ch ∧ ch ≤ 57 then some (ch + 4)
  else if ch = 45 then some 62
  else if ch = 95 then some 63
  else none

/-- Go `base64.URLEncoding.DecodeString` on text without line breaks: four
characters give three bytes; the last group may end in one or two `=`. -/
def base64URLDecode : Bytes → Option Bytes
  | [] => some []
  | c0 :: c1 :: c2 :: c3 :: rest =>
    match decodeURL c0, decodeURL c1 with
    | some v0, some v1 =>
      if rest = [] ∧ c3 = 61 then
        if c2 = 61 then some [(v0 * 262144 + v1 * 4096) / 65536 % 256]
        else
          match decodeURL c2 with
          | some v2 =>
            let val := v0 * 262144 + v1 * 4096 + v2 * 64
            some [val / 65536 % 256, val / 256 % 256]
          | none => none
      else
        match decodeURL c2, decodeURL c3, base64URLDecode rest with
        | some v2, some v3, some tail =>
          let val := v0 * 262144 + v1 * 4096 + v2 * 64 + v3
          some (val / 65536 % 256 :: val / 256 % 256 :: val % 256 :: tail)
        | _, _, _ => none
    | _, _ => none
  | _ => none

/-- Go `utf8.EncodeRune`: the UTF-8 encoding of a rune; surrogates and values
above U+10FFFF are written as U+FFFD. -/
def encodeRune (r : Nat) : Bytes :=
  if r < 0x80 then [r]
  else if r < 0x800 then [0xC0 + r / 64, 0x80 + r % 64]
  else if (0xD800 ≤ r ∧ r ≤ 0xDFFF) ∨ 0x10FFFF < r then [0xEF, 0xBF, 0xBD]
  else if r < 0x10000 then [0xE0 + r / 4096, 0x80 + r / 64 % 64, 0x80 + r % 64]
  else
    [0xF0 + r / 262144, 0x80 + r / 4096 % 64, 0x80 + r / 64 % 64, 0x80 + r % 64]

/-- Go `utf8.ValidString`, with `fuel` bounding the number of runes: no rune of
`s` decodes to the error rune of width 1. -/
def validLoop : Nat → Bytes → Bool
  | _, [] => true
  | 0, _ :: _ => false
  | fuel + 1, b :: rest =>
    let r := decodeRune (b :: rest)
    if r.1 = 0xFFFD ∧ r.2 = 1 then false
    else validLoop fuel ((b :: rest).drop r.2)

/-- Go `utf8.ValidString`. -/
def ValidString (s : Bytes) : Prop :=
  validLoop s.length s = true

/-- The value of a hexadecimal digit. -/
def hexVal (ch : Nat) : Option Nat :=
  if 48 ≤ ch ∧ ch ≤ 57 then some (ch - 48)
  else if 97 ≤ ch ∧ ch ≤ 102 then some (ch - 87)
  else if 65 ≤ ch ∧ ch ≤ 70 then some (ch - 55)
  else none

/-- Go `encoding/json`, `getu4`: the rune of a `\uXXXX` escape at the head of
the text. -/
def getu4 : Bytes → Option Nat
  | 92 :: 117 :: h1 :: h2 :: h3 :: h4 :: _ =>
    match hexVal h1, hexVal h2, hexVal h3, hexVal h4 with
    | some v1, some v2, some v3, some v4 =>
      some (v1 * 4096 + v2 * 256 + v3 * 16 + v4)
    | _, _, _, _ => none
  | _ => none

/-- Go `encoding/json`, the one-character escapes of `unquote`. -/
def unescape (e : Nat) : Option Nat :=
  if e = 34 ∨ e = 92 ∨ e = 47 ∨ e = 39 then some e
  else if e = 98 then some 8
  else if e = 102 then some 12
  else if e = 110 then some 10
  else if e = 114 then some 13
  else if e = 116 then some 9
  else none

/-- Puts `p` in front of the string a decoder returned. -/
def prepend (p : Bytes) (r : Option (Bytes × Bytes)) : Option (Bytes × Bytes) :=
  r.map fun x => (p ++ x.1, x.2)

/-- Go `encoding/json`, `unquote`, run up to the closing quote: the string
whose JSON text starts the input (the opening quote already read) and the
input after the closing quote.  Escapes are resolved (a surrogate pair gives
one rune), control characters are refused, and bytes that are not UTF-8 are
replaced by U+FFFD. -/
def decodeStringLoop : Nat → Bytes → Option (Bytes × Bytes)
  | 0, _ => none
  | _ + 1, [] => none
  | fuel + 1, ch :: rest =>
    if ch = 34 then some ([], rest)
    else if ch = 92 then
      match rest with
      | [] => none
      | e :: rest2 =>
        if e = 117 then
          match getu4 (ch :: rest) with
          | none => none
          | some rr =>
            let after := rest2.drop 4
            if 0xD800 ≤ rr ∧ rr < 0xE000 then
              match getu4 after with
              | some rr1 =>
                if rr < 0xDC00 ∧ 0xDC00 ≤ rr1 ∧ rr1 < 0xE000 then
                  prepend
                    (encodeRune ((rr - 0xD800) * 1024 + (rr1 - 0xDC00) + 0x10000))
                    (decodeStringLoop fuel (after.drop 6))
                else prepend [0xEF, 0xBF, 0xBD] (decodeStringLoop fuel after)
              | none => prepend [0xEF, 0xBF, 0xBD] (decodeStringLoop fuel after)
            else prepend (encodeRune rr) (decodeStringLoop fuel after)
        else
          match unescape e with
          | none => none
          | some b => prepend [b] (decodeStringLoop fuel rest2)
    else if ch < 0x20 then none
    else if ch < 0x80 then prepend [ch] (decodeStringLoop fuel rest)
    else
      let r := decodeRune (ch :: rest)
      prepend (encodeRune r.1) (decodeStringLoop fuel ((ch :: rest).drop r.2))

/-- A JSON string at the head of the input: the string and the input after
it. -/
def decodeString : Bytes → Option (Bytes × Bytes)
  | 34 :: rest => decodeStringLoop rest.length rest
  | _ => none

/-- Stores the value of the member `key` in the field of `types.AuthConfig`
with that JSON key; other keys are ignored. -/
def setField (a : AuthConfig) (key val : Bytes) : AuthConfig :=
  if key = [117, 115, 101, 114, 110, 97, 109, 101] then
    { a with Username := val }
  else if key = [112, 97, 115, 115, 119, 111, 114, 100] then
    { a with Password := val }
  else if key = [97, 117, 116, 104] then { a with Auth := val }
  else if key = [101, 109, 97, 105, 108] then { a with Email := val }
  else if key =
      [115, 101, 114, 118, 101, 114, 97, 100, 100, 114, 101, 115, 115] then
    { a with ServerAddress := val }
  else if key =
      [105, 100, 101, 110, 116, 105, 116, 121, 116, 111, 107, 101, 110] then
    { a with IdentityToken := val }
  else if key =
      [114, 101, 103, 105, 115, 116, 114, 121, 116, 111, 107, 101, 110] then
    { a with RegistryToken := val }
  else a

/-- One member `"key":"value"` at the head of the input, stored into `a`. -/
def decodeMember (input : Bytes) (a : AuthConfig) :
    Option (AuthConfig × Bytes) :=
  match decodeString input with
  | none => none
  | some (key, r1) =>
    match r1 with
    | 58 :: r2 =>
      match decodeString r2 with
      | none => none
      | some (val, r3) => some (setField a key val, r3)
    | _ => none

/-- The rest of an object after a member: either the closing brace or a comma
and a further member. -/
def decodeTail : Nat → Bytes → AuthConfig → Option (AuthConfig × Bytes)
  | 0, _, _ => none
  | fuel + 1, input, a =>
    match input with
    | 125 :: r => some (a, r)
    | 44 :: r =>
      match decodeMember r a with
      | none => none
      | some (a2, r2) => decodeTail fuel r2 a2
    | _ => none

/-- Go `json.Unmarshal` into a zero `types.AuthConfig`, for compact JSON
objects whose values are strings. -/
def jsonUnmarshal (input : Bytes) : Option AuthConfig :=
  match input with
  | 123 :: 125 :: [] => some {}
  | 123 :: rest =>
    match decodeMember rest {} with
    | some (a, r) =>
      match decodeTail r.length r a with
      | some (a2, []) => some a2
      | _ => none
    | none => none
  | _ => none

/-- Reading a `RegistryAuth` value back: base64url-decoding, then
JSON-decoding. -/
def decodeRegistryAuth (auth : Bytes) : Option AuthConfig :=
  match base64URLDecode auth with
  | some js => jsonUnmarshal js
  | none => none

/-- The fields a JSON object with the members `fs` sets: every member with a
non-empty value is stored, in order. -/
def applyFields (a : AuthConfig) : List (Bytes × Bytes) → AuthConfig
  | [] => a
  | (k, v) :: fs => if v = [] then applyFields a fs else applyFields (setField a k v) fs

/-- A key that is written as it is and read back as it is. -/
def PlainKey (k : Bytes) : Prop :=
  encodeStringLoop k.length k = k ∧ validLoop k.length k = true ∧
    ∀ x ∈ k, x < 256

/-- Every field of the credentials is valid UTF-8. -/
def ValidAuthConfig (a : AuthConfig) : Prop :=
  ValidString a.Username ∧ ValidString a.Password ∧ ValidString a.Auth ∧
    ValidString a.Email ∧ ValidString a.ServerAddress ∧
    ValidString a.IdentityToken ∧ ValidString a.RegistryToken

/-! ## Multiplexed log streams

The format Docker's `stdcopy.NewStdWriter` writes, which `StdCopy` reads back:
this is what a well-formed log stream is. -/

/-- A frame of a multiplexed stream: the stream type (1 is standard output, 2
is standard error) and the payload. -/
structure Frame where
  stream : Nat
  payload : Bytes
  deriving DecidableEq, Repr

/-- Docker `stdcopy`, `stdWriter.Write`: the header (the stream type, three
zero bytes, the payload size as a big-endian 32-bit number) and the payload. -/
def encodeFrame (f : Frame) : Bytes :=
  [f.stream, 0, 0, 0,
    f.payload.length / 16777216 % 256, f.payload.length / 65536 % 256,
    f.payload.length / 256 % 256, f.payload.length % 256] ++ f.payload

/-- A multiplexed stream: the frames one after the other. -/
def encodeFrames : List Frame → Bytes
  | [] => []
  | f :: fs => encodeFrame f ++ encodeFrames fs

/-- A well-formed log stream carries standard-output and standard-error frames
whose sizes fit the 32-bit size field. -/
def WellFormed (frames : List Frame) : Prop :=
  ∀ f ∈ frames, (f.stream = 1 ∨ f.stream = 2) ∧ f.payload.length < 4294967296

/-- The payloads of the frames of stream type `k`, concatenated in stream
order. -/
def payloads (k : Nat) : List Frame → Bytes
  | [] => []
  | f :: fs => if f.stream = k then f.payload ++ payloads k fs else payloads k fs

/-- The bytes of `stdout works` followed by a newline. -/
def stdoutWorks : Bytes :=
  [115, 116, 100, 111, 117, 116, 32, 119, 111, 114, 107, 115, 10]

/-- The bytes of `stderr works` followed by a newline. -/
def stderrWorks : Bytes :=
  [115, 116, 100, 101, 114, 114, 32, 119, 111, 114, 107, 115, 10]

/-! ## Errors inside the progress stream

The engine answers a pull with a stream of JSON messages.  Once the answer has
started, the engine can only report a failure of the pull as a message of that
stream (Docker `jsonmessage.JSONMessage`, member `error`); the stream itself
then ends normally. -/

/-- Whether `s` starts with `pat`. -/
def startsWith : Bytes → Bytes → Bool
  | [], _ => true
  | _ :: _, [] => false
  | p :: pat, b :: s => p == b && startsWith pat s

/-- Whether `pat` occurs in `s`. -/
def occursIn (pat : Bytes) : Bytes → Bool
  | [] => startsWith pat []
  | b :: s => startsWith pat (b :: s) || occursIn pat s

/-- A progress stream carries an error message when one of its JSON messages
has the member `error`: the text `"error":` occurs in it. -/
def carriesErrorMessage (s : Bytes) : Bool :=
  occursIn [34, 101, 114, 114, 111, 114, 34, 58] s

/-- The progress stream of a pull the engine refuses after the answer has
started: the message
`{"errorDetail":{"message":"pull access denied"},"error":"pull access denied"}`
and a line break. -/
def pullDenied : Bytes :=
  [123, 34, 101, 114, 114, 111, 114, 68, 101, 116, 97, 105, 108, 34, 58,
   123, 34, 109, 101, 115, 115, 97, 103, 101, 34, 58, 34, 112, 117, 108,
   108, 32, 97, 99, 99, 101, 115, 115, 32, 100, 101, 110, 105, 101, 100, 34,
   125, 44, 34, 101, 114, 114, 111, 114, 34, 58, 34, 112, 117, 108, 108, 32,
   97, 99, 99, 101, 115, 115, 32, 100, 101, 110, 105, 101, 100, 34, 125, 13,
   10]

/-! ## A concrete engine

A small engine on which the statements below are exercised.  Its state counts
the requests it has served. -/

/-- The log stream of `sampleEngine` for container `c1`: a stdout frame with
payload `out`, a stderr frame with payload `err`, and a stdout frame `!`. -/
def sampleLogs : Stream :=
  { data := [1, 0, 0, 0, 0, 0, 0, 3, 111, 117, 116,
             2, 0, 0, 0, 0, 0, 0, 3, 101, 114, 114,
             1, 0, 0, 0, 0, 0, 0, 1, 33] }

/-- The log stream of `sampleEngine` for container `c2`: a stdout frame, then a
frame whose stream type is 7, then another stdout frame. -/
def brokenLogs : Stream :=
  { data := [1, 0, 0, 0, 0, 0, 0, 1, 97,
             7, 0, 0, 0, 0, 0, 0, 1, 98,
             1, 0, 0, 0, 0, 0, 0, 1, 99] }

/-- An engine that accepts a login with a non-empty password, refuses a pull
without credentials (`RegistryAuth` is `e30=`, the encoding of `{}`), serves a
progress stream that breaks for the image `broken`, creates the container `c1`
unless the name is `taken`, starts `c1` unless a checkpoint is asked for, and
has logs for `c1` and `c2`, for `c3` (which wrote `stdout works` to standard
output) and for `c4` (which wrote `stderr works` to standard error). -/
def sampleEngine : Engine (List String) Unit Unit String Nat where
  RegistryLogin st a :=
    if a.Password = [] then (.error (.engine "unauthorized"), st + 1)
    else (.ok { Status := "Login Succeeded" }, st + 1)
  ImagePull st ref o :=
    if o.RegistryAuth = [101, 51, 48, 61] then
      (.error (.engine "pull access denied"), st + 1)
    else if ref = "broken" then
      (.ok { data := [123, 125], err := some (.engine "unexpected EOF") },
        st + 1)
    else if ref = "busybox" then
      (.ok { data := [123, 125, 10, 123, 125, 10] }, st + 1)
    else (.ok { data := [123, 125, 10] }, st + 1)
  ContainerCreate st _ _ _ name :=
    if name = "taken" then (.error (.engine "Conflict"), st + 1)
    else (.ok { ID := "c1" }, st + 1)
  ContainerStart st id o :=
    if id = "c1" ∧ o = "" then (none, st + 1)
    else (some (.engine "cannot start"), st + 1)
  ContainerLogs st id _ :=
    if id = "c1" then (.ok sampleLogs, st + 1)
    else if id = "c2" then (.ok brokenLogs, st + 1)
    else if id = "c3" then
      (.ok { data := encodeFrames [⟨1, stdoutWorks⟩] }, st + 1)
    else if id = "c4" then
      (.ok { data := encodeFrames [⟨2, stderrWorks⟩] }, st + 1)
    else (.error (.engine "No such container"), st + 1)

/-- A fresh client of `sampleEngine`. -/
def sampleClient : Client (List String) Unit Unit String Nat :=
  NewClient sampleEngine

/-- A client of `sampleEngine` holding credentials. -/
def sampleClientAuth : Client (List String) Unit Unit String Nat :=
  { Client := sampleEngine,
    authConfig := { Username := [117], Password := [112], ServerAddress := [115] } }

/-- An engine that accepts every pull request and reports the refusal inside
the progress stream, which then ends normally; otherwise it is
`sampleEngine`. -/
def inbandEngine : Engine (List String) Unit Unit String Nat :=
  { sampleEngine with
    ImagePull := fun st _ _ => (.ok { data := pullDenied }, st + 1) }

/-- The world before any request. -/
def sampleWorld : World (List String) Unit Unit String Nat :=
  { state := 0, trace := [] }

/-- A run configuration `sampleEngine` starts. -/
def sampleConfig : RunConfig (List String) Unit Unit String :=
  { ContainerConfig := some ["sh", "-c", "echo stdout works"],
    HostConfig := some (), NetConfig := some (), ContainerStartOptions := "" }

/-- A run configuration whose start `sampleEngine` refuses. -/
def sampleConfigNoStart : RunConfig (List String) Unit Unit String :=
  { ContainerConfig := some ["sh"], HostConfig := none, NetConfig := none,
    ContainerStartOptions := "cp" }

/-! # Properties -/

/-! ## Login -/

/-- C1: Login sends exactly one RegistryLogin request, carrying the given
username, password and server; when the request succeeds Login returns nil and
the stored credentials become exactly those three values; when it fails with
error e Login returns e itself and the stored credentials are unchanged. -/
theorem Login_spec (c : Client C H N S σ) (w : World C H N S σ)
    (server username password : Bytes) :
    (Login c w server username password).2.2.trace =
        w.trace ++ [.RegistryLogin
          { Username := username, Password := password,
            ServerAddress := server }] ∧
    (∀ body st,
        c.Client.RegistryLogin w.state
          { Username := username, Password := password,
            ServerAddress := server } = (.ok body, st) →
        (Login c w server username password).1 = none ∧
        (Login c w server username password).2.1.authConfig =
          { Username := username, Password := password,
            ServerAddress := server } ∧
        (Login c w server username password).2.2.state = st) ∧
    (∀ e st,
        c.Client.RegistryLogin w.state
          { Username := username, Password := password,
            ServerAddress := server } = (.error e, st) →
        (Login c w server username password).1 = some e ∧
        (Login c w server username password).2.1 = c ∧
        (Login c w server username password).2.2.state = st) := by
  refine ⟨?_, ?_, ?_⟩
  · rcases h : c.Client.RegistryLogin w.state
        { Username := username, Password := password,
          ServerAddress := server } with ⟨_ | _, st⟩ <;>
      simp [Login, h]
  · intro body st h
    simp [Login, h]
  · intro e st h
    simp [Login, h]

/-- C1 on the sample engine: a login that succeeds and a login that is
refused. -/
theorem Login_spec_witness :
    (Login sampleClient sampleWorld [115] [117] [112]).1 = none ∧
    (Login sampleClient sampleWorld [115] [117] [112]).2.1.authConfig =
      { Username := [117], Password := [112], ServerAddress := [115] } ∧
    (Login sampleClientAuth sampleWorld [115] [117] []).1 =
      some (.engine "unauthorized") ∧
    (Login sampleClientAuth sampleWorld [115] [117] []).2.1 =
      sampleClientAuth :=
  have ok := (Login_spec sampleClient sampleWorld [115] [117] [112]).2.1
    { Status := "Login Succeeded" } 1 rfl
  have ko := (Login_spec sampleClientAuth sampleWorld [115] [117] []).2.2
    (.engine "unauthorized") 1 rfl
  ⟨ok.1, ok.2.1, ko.1, ko.2.1⟩

/-! ## Run, Create, RunExisting -/

/-- C3: Run first sends ContainerCreate with the container, host and network
parts of the configuration and the name.  If that fails, no ContainerStart is
sent.  Otherwise Run sends exactly one ContainerStart, for the identifier the
create returned and with the start options of the configuration, and returns
that identifier when the start succeeds.  When the start fails Run sends
nothing more, in particular no removal, so the created container stays. -/
theorem Run_spec (c : Client C H N S σ) (w : World C H N S σ)
    (cfg : RunConfig C H N S) (name : String) :
    (∀ e st,
        c.Client.ContainerCreate w.state cfg.ContainerConfig cfg.HostConfig
          cfg.NetConfig name = (.error e, st) →
        Run c w cfg name =
          (("", some e), c,
            ⟨st, w.trace ++ [.ContainerCreate cfg.ContainerConfig
              cfg.HostConfig cfg.NetConfig name]⟩)) ∧
    (∀ resp st,
        c.Client.ContainerCreate w.state cfg.ContainerConfig cfg.HostConfig
          cfg.NetConfig name = (.ok resp, st) →
        (∀ st2,
          c.Client.ContainerStart st resp.ID cfg.ContainerStartOptions =
            (none, st2) →
          Run c w cfg name =
            ((resp.ID, none), c,
              ⟨st2, w.trace ++ [.ContainerCreate cfg.ContainerConfig
                  cfg.HostConfig cfg.NetConfig name,
                .ContainerStart resp.ID cfg.ContainerStartOptions]⟩)) ∧
        (∀ e st2,
          c.Client.ContainerStart st resp.ID cfg.ContainerStartOptions =
            (some e, st2) →
          Run c w cfg name =
            (("", some e), c,
              ⟨st2, w.trace ++ [.ContainerCreate cfg.ContainerConfig
                  cfg.HostConfig cfg.NetConfig name,
                .ContainerStart resp.ID cfg.ContainerStartOptions]⟩))) := by
  refine ⟨?_, ?_⟩
  · intro e st h
    simp [Run, h]
  · intro resp st h
    refine ⟨?_, ?_⟩
    · intro st2 h2
      simp [Run, h, h2]
    · intro e st2 h2
      simp [Run, h, h2]

/-- C3 on the sample engine: a create that fails, a run that succeeds and a
start that fails. -/
theorem Run_spec_witness :
    Run sampleClient sampleWorld sampleConfig "taken" =
      (("", some (.engine "Conflict")), sampleClient,
        ⟨1, [.ContainerCreate (some ["sh", "-c", "echo stdout works"])
          (some ()) (some ()) "taken"]⟩) ∧
    Run sampleClient sampleWorld sampleConfig "" =
      (("c1", none), sampleClient,
        ⟨2, [.ContainerCreate (some ["sh", "-c", "echo stdout works"])
            (some ()) (some ()) "",
          .ContainerStart "c1" ""]⟩) ∧
    Run sampleClient sampleWorld sampleConfigNoStart "" =
      (("", some (.engine "cannot start")), sampleClient,
        ⟨2, [.ContainerCreate (some ["sh"]) none none "",
          .ContainerStart "c1" "cp"]⟩) :=
  ⟨(Run_spec sampleClient sampleWorld sampleConfig "taken").1
      (.engine "Conflict") 1 rfl,
   ((Run_spec sampleClient sampleWorld sampleConfig "").2
      { ID := "c1" } 1 rfl).1 2 rfl,
   ((Run_spec sampleClient sampleWorld sampleConfigNoStart "").2
      { ID := "c1" } 1 rfl).2 (.engine "cannot start") 2 rfl⟩

/-- C4, as stated, fails: when the start fails, Run returns the empty
identifier, whereas the caller of the pair already holds the identifier
Create returned.  On the sample engine with a configuration whose start is
refused the two results differ. -/
theorem Run_CreateThenRunExisting_differ :
    (Run sampleClient sampleWorld sampleConfigNoStart "").1 =
      ("", some (.engine "cannot start")) ∧
    (CreateThenRunExisting sampleClient sampleWorld sampleConfigNoStart "").1 =
      ("c1", some (.engine "cannot start")) ∧
    ¬ (Run sampleClient sampleWorld sampleConfigNoStart "").1 =
      (CreateThenRunExisting sampleClient sampleWorld sampleConfigNoStart "").1 := by
  refine ⟨rfl, rfl, ?_⟩
  intro h
  have h1 : (Run sampleClient sampleWorld sampleConfigNoStart "").1.1 =
      (CreateThenRunExisting sampleClient sampleWorld
        sampleConfigNoStart "").1.1 := by rw [h]
  revert h1
  decide

/-- C4, amended: Run and the pair Create then RunExisting leave the same
client and the same world (the same requests with the same arguments in the
same order, the same engine state) and end with the same error; they give the
same identifier whenever they succeed; when they fail Run returns the empty
identifier.  When the create succeeds the requests are one ContainerCreate
followed by one ContainerStart of the created container. -/
theorem Run_equiv_CreateThenRunExisting (c : Client C H N S σ)
    (w : World C H N S σ) (cfg : RunConfig C H N S) (name : String) :
    (Run c w cfg name).2 = (CreateThenRunExisting c w cfg name).2 ∧
    (Run c w cfg name).1.2 = (CreateThenRunExisting c w cfg name).1.2 ∧
    ((Run c w cfg name).1.2 = none →
      (Run c w cfg name).1.1 = (CreateThenRunExisting c w cfg name).1.1) ∧
    ((Run c w cfg name).1.2 ≠ none → (Run c w cfg name).1.1 = "") ∧
    (∀ resp st,
      c.Client.ContainerCreate w.state cfg.ContainerConfig cfg.HostConfig
        cfg.NetConfig name = (.ok resp, st) →
      (CreateThenRunExisting c w cfg name).1.1 = resp.ID ∧
      (CreateThenRunExisting c w cfg name).2.2.trace =
        w.trace ++ [.ContainerCreate cfg.ContainerConfig cfg.HostConfig
            cfg.NetConfig name,
          .ContainerStart resp.ID cfg.ContainerStartOptions]) := by
  rcases h : c.Client.ContainerCreate w.state cfg.ContainerConfig
      cfg.HostConfig cfg.NetConfig name with ⟨_ | resp, st⟩
  · simp [Run, CreateThenRunExisting, Create, h]
  · rcases h2 : c.Client.ContainerStart st resp.ID
        cfg.ContainerStartOptions with ⟨_ | e, st2⟩ <;>
      simp [Run, CreateThenRunExisting, Create, RunExisting, h, h2]

/-- C4, amended, on the sample engine: a run that succeeds and a start that
fails. -/
theorem Run_equiv_CreateThenRunExisting_witness :
    (Run sampleClient sampleWorld sampleConfig "").1.1 =
      (CreateThenRunExisting sampleClient sampleWorld sampleConfig "").1.1 ∧
    (Run sampleClient sampleWorld sampleConfigNoStart "").1.1 = "" ∧
    (CreateThenRunExisting sampleClient sampleWorld sampleConfig "").2.2.trace =
      [.ContainerCreate (some ["sh", "-c", "echo stdout works"]) (some ())
          (some ()) "",
        .ContainerStart "c1" ""] :=
  ⟨(Run_equiv_CreateThenRunExisting sampleClient sampleWorld
      sampleConfig "").2.2.1 rfl,
   (Run_equiv_CreateThenRunExisting sampleClient sampleWorld
      sampleConfigNoStart "").2.2.2.1 (by decide),
   ((Run_equiv_CreateThenRunExisting sampleClient sampleWorld
      sampleConfig "").2.2.2.2 { ID := "c1" } 1 rfl).2⟩

/-! ## Errors -/

/-- C6: every operation returns the error of the first failing step as it
is, sends nothing after it, and returns zero values with it: Login, Pull (the
pull request, or reading the progress stream), Run (the create, or the start),
RunExisting, Create and Logs (the logs request, or the demultiplexing, whose
partial output is dropped). -/
theorem errors_returned_unchanged (c : Client C H N S σ)
    (w : World C H N S σ) :
    (∀ server username password e st,
      c.Client.RegistryLogin w.state
        { Username := username, Password := password,
          ServerAddress := server } = (.error e, st) →
      Login c w server username password =
        (some e, c, ⟨st, w.trace ++ [.RegistryLogin
          { Username := username, Password := password,
            ServerAddress := server }]⟩)) ∧
    (∀ imageRef e st,
      c.Client.ImagePull w.state imageRef
        { RegistryAuth := base64URLEncode (marshalAuthConfig c.authConfig) } =
          (.error e, st) →
      Pull c w imageRef =
        (some e, c, ⟨st, w.trace ++ [.ImagePull imageRef
          { RegistryAuth :=
              base64URLEncode (marshalAuthConfig c.authConfig) }]⟩)) ∧
    (∀ imageRef body e st,
      c.Client.ImagePull w.state imageRef
        { RegistryAuth := base64URLEncode (marshalAuthConfig c.authConfig) } =
          (.ok body, st) →
      body.err = some e →
      Pull c w imageRef =
        (some e, c, ⟨st, w.trace ++ [.ImagePull imageRef
            { RegistryAuth :=
                base64URLEncode (marshalAuthConfig c.authConfig) },
          .BodyRead body.data.length, .BodyClose]⟩)) ∧
    (∀ (cfg : RunConfig C H N S) name e st,
      c.Client.ContainerCreate w.state cfg.ContainerConfig cfg.HostConfig
        cfg.NetConfig name = (.error e, st) →
      Run c w cfg name =
        (("", some e), c, ⟨st, w.trace ++ [.ContainerCreate
          cfg.ContainerConfig cfg.HostConfig cfg.NetConfig name]⟩)) ∧
    (∀ (cfg : RunConfig C H N S) name resp st e st2,
      c.Client.ContainerCreate w.state cfg.ContainerConfig cfg.HostConfig
        cfg.NetConfig name = (.ok resp, st) →
      c.Client.ContainerStart st resp.ID cfg.ContainerStartOptions =
        (some e, st2) →
      Run c w cfg name =
        (("", some e), c, ⟨st2, w.trace ++ [.ContainerCreate
            cfg.ContainerConfig cfg.HostConfig cfg.NetConfig name,
          .ContainerStart resp.ID cfg.ContainerStartOptions]⟩)) ∧
    (∀ (cfg : RunConfig C H N S) containerID e st,
      c.Client.ContainerStart w.state containerID cfg.ContainerStartOptions =
        (some e, st) →
      RunExisting c w cfg containerID =
        (some e, c, ⟨st, w.trace ++ [.ContainerStart containerID
          cfg.ContainerStartOptions]⟩)) ∧
    (∀ (cfg : RunConfig C H N S) name e st,
      c.Client.ContainerCreate w.state cfg.ContainerConfig cfg.HostConfig
        cfg.NetConfig name = (.error e, st) →
      Create c w cfg name =
        (("", some e), c, ⟨st, w.trace ++ [.ContainerCreate
          cfg.ContainerConfig cfg.HostConfig cfg.NetConfig name]⟩)) ∧
    (∀ contID follow e st,
      c.Client.ContainerLogs w.state contID
        { ShowStdout := true, ShowStderr := true, Follow := follow } =
          (.error e, st) →
      Logs c w contID follow =
        (([], [], some e), c, ⟨st, w.trace ++ [.ContainerLogs contID
          { ShowStdout := true, ShowStderr := true, Follow := follow }]⟩)) ∧
    (∀ contID follow logs e st,
      c.Client.ContainerLogs w.state contID
        { ShowStdout := true, ShowStderr := true, Follow := follow } =
          (.ok logs, st) →
      (stdCopy [] [] logs).err = some e →
      Logs c w contID follow =
        (([], [], some e), c, ⟨st, w.trace ++ [.ContainerLogs contID
            { ShowStdout := true, ShowStderr := true, Follow := follow },
          .BodyRead (logs.data.length - (stdCopy [] [] logs).unread.length),
          .BodyClose]⟩)) := by
  refine ⟨?_, ?_, ?_, ?_, ?_, ?_, ?_, ?_, ?_⟩
  · intro server username password e st h
    simp [Login, h]
  · intro imageRef e st h
    simp [Pull, jsonMarshal, h]
  · intro imageRef body e st h he
    simp [Pull, jsonMarshal, h, ioCopyDiscard, he]
  · intro cfg name e st h
    simp [Run, h]
  · intro cfg name resp st e st2 h h2
    simp [Run, h, h2]
  · intro cfg containerID e st h
    simp [RunExisting, h]
  · intro cfg name e st h
    simp [Create, h]
  · intro contID follow e st h
    simp [Logs, h]
  · intro contID follow logs e st h he
    simp [Logs, h, he]

/-- C6 on the sample engine: one failing run of every operation and failing
step. -/
theorem errors_returned_unchanged_witness :
    Login sampleClientAuth sampleWorld [115] [117] [] =
      (some (.engine "unauthorized"), sampleClientAuth,
        ⟨1, [.RegistryLogin { Username := [117], ServerAddress := [115] }]⟩) ∧
    Pull sampleClient sampleWorld "alpine" =
      (some (.engine "pull access denied"), sampleClient,
        ⟨1, [.ImagePull "alpine" { RegistryAuth := [101, 51, 48, 61] }]⟩) ∧
    (Pull sampleClientAuth sampleWorld "broken").1 =
      some (.engine "unexpected EOF") ∧
    (Run sampleClient sampleWorld sampleConfig "taken").1 =
      ("", some (.engine "Conflict")) ∧
    (Run sampleClient sampleWorld sampleConfigNoStart "").1 =
      ("", some (.engine "cannot start")) ∧
    (RunExisting sampleClient sampleWorld sampleConfig "c9").1 =
      some (.engine "cannot start") ∧
    (Create sampleClient sampleWorld sampleConfig "taken").1 =
      ("", some (.engine "Conflict")) ∧
    (Logs sampleClient sampleWorld "c9" true).1 =
      ([], [], some (.engine "No such container")) ∧
    (Logs sampleClient sampleWorld "c2" true).1 =
      ([], [], some (.unrecognizedHeader 7)) :=
  have hA := errors_returned_unchanged sampleClientAuth sampleWorld
  have hN := errors_returned_unchanged sampleClient sampleWorld
  ⟨hA.1 [115] [117] [] (.engine "unauthorized") 1 rfl,
   hN.2.1 "alpine" (.engine "pull access denied") 1 rfl,
   congrArg Prod.fst (hA.2.2.1 "broken"
     { data := [123, 125], err := some (.engine "unexpected EOF") }
     (.engine "unexpected EOF") 1 rfl rfl),
   congrArg Prod.fst (hN.2.2.2.1 sampleConfig "taken" (.engine "Conflict") 1
     rfl),
   congrArg Prod.fst (hN.2.2.2.2.1 sampleConfigNoStart "" { ID := "c1" } 1
     (.engine "cannot start") 2 rfl rfl),
   congrArg Prod.fst (hN.2.2.2.2.2.1 sampleConfig "c9"
     (.engine "cannot start") 1 rfl),
   congrArg Prod.fst (hN.2.2.2.2.2.2.1 sampleConfig "taken"
     (.engine "Conflict") 1 rfl),
   congrArg Prod.fst (hN.2.2.2.2.2.2.2.1 "c9" true
     (.engine "No such container") 1 rfl),
   congrArg Prod.fst (hN.2.2.2.2.2.2.2.2 "c2" true brokenLogs
     (.unrecognizedHeader 7) 1 rfl rfl)⟩

/-! ## The stored credentials -/

/-- C7: Pull, Run, RunExisting, Create and Logs return the client as it was,
so only Login changes the stored credentials; and what Run, RunExisting,
Create and Logs return and do to the world is the same whatever credentials
the client holds, so only Pull reads them. -/
theorem credentials_frame (c : Client C H N S σ) (w : World C H N S σ)
    (a : AuthConfig) (cfg : RunConfig C H N S) (s : String) (follow : Bool) :
    (Pull c w s).2.1 = c ∧
    (Run c w cfg s).2.1 = c ∧
    (RunExisting c w cfg s).2.1 = c ∧
    (Create c w cfg s).2.1 = c ∧
    (Logs c w s follow).2.1 = c ∧
    ((Run { c with authConfig := a } w cfg s).1 = (Run c w cfg s).1 ∧
      (Run { c with authConfig := a } w cfg s).2.2 = (Run c w cfg s).2.2) ∧
    ((RunExisting { c with authConfig := a } w cfg s).1 =
        (RunExisting c w cfg s).1 ∧
      (RunExisting { c with authConfig := a } w cfg s).2.2 =
        (RunExisting c w cfg s).2.2) ∧
    ((Create { c with authConfig := a } w cfg s).1 = (Create c w cfg s).1 ∧
      (Create { c with authConfig := a } w cfg s).2.2 =
        (Create c w cfg s).2.2) ∧
    ((Logs { c with authConfig := a } w s follow).1 = (Logs c w s follow).1 ∧
      (Logs { c with authConfig := a } w s follow).2.2 =
        (Logs c w s follow).2.2) := by
  have hRun : ∀ c2 : Client C H N S σ, c2.Client = c.Client →
      (Run c2 w cfg s).2.1 = c2 ∧ (Run c2 w cfg s).1 = (Run c w cfg s).1 ∧
        (Run c2 w cfg s).2.2 = (Run c w cfg s).2.2 := by
    intro c2 hc
    rcases h : c.Client.ContainerCreate w.state cfg.ContainerConfig
        cfg.HostConfig cfg.NetConfig s with ⟨_ | resp, st⟩
    · simp [Run, hc, h]
    · rcases h2 : c.Client.ContainerStart st resp.ID
          cfg.ContainerStartOptions with ⟨_ | e, st2⟩ <;>
        simp [Run, hc, h, h2]
  have hCreate : ∀ c2 : Client C H N S σ, c2.Client = c.Client →
      (Create c2 w cfg s).2.1 = c2 ∧
        (Create c2 w cfg s).1 = (Create c w cfg s).1 ∧
        (Create c2 w cfg s).2.2 = (Create c w cfg s).2.2 := by
    intro c2 hc
    rcases h : c.Client.ContainerCreate w.state cfg.ContainerConfig
        cfg.HostConfig cfg.NetConfig s with ⟨_ | resp, st⟩ <;>
      simp [Create, hc, h]
  have hLogs : ∀ c2 : Client C H N S σ, c2.Client = c.Client →
      (Logs c2 w s follow).2.1 = c2 ∧
        (Logs c2 w s follow).1 = (Logs c w s follow).1 ∧
        (Logs c2 w s follow).2.2 = (Logs c w s follow).2.2 := by
    intro c2 hc
    rcases h : c.Client.ContainerLogs w.state s
        { ShowStdout := true, ShowStderr := true, Follow := follow }
      with ⟨_ | logs, st⟩
    · simp [Logs, hc, h]
    · rcases he : (stdCopy [] [] logs).err with _ | e <;>
        simp [Logs, hc, h, he]
  have hPull : (Pull c w s).2.1 = c := by
    rcases h : c.Client.ImagePull w.state s
        { RegistryAuth := base64URLEncode (marshalAuthConfig c.authConfig) }
      with ⟨_ | body, st⟩
    · simp [Pull, jsonMarshal, h]
    · rcases he : body.err with _ | e <;>
        simp [Pull, jsonMarshal, h, ioCopyDiscard, he]
  exact ⟨hPull, (hRun c rfl).1, rfl, (hCreate c rfl).1, (hLogs c rfl).1,
    (hRun { c with authConfig := a } rfl).2, ⟨rfl, rfl⟩,
    (hCreate { c with authConfig := a } rfl).2,
    (hLogs { c with authConfig := a } rfl).2⟩

/-! ## Pull -/

/-- C8, as stated, fails: an error the engine reports inside the progress
stream goes unnoticed.  The engine `inbandEngine` accepts the pull request of a
client without credentials and answers with a stream that carries the message
`pull access denied` and ends normally; Pull returns nil. -/
theorem Pull_misses_error_in_stream :
    (NewClient inbandEngine).Client.ImagePull sampleWorld.state "private/image"
      { RegistryAuth := base64URLEncode
          (marshalAuthConfig (NewClient inbandEngine).authConfig) } =
        (.ok { data := pullDenied }, 1) ∧
    carriesErrorMessage pullDenied = true ∧
    (Pull (NewClient inbandEngine) sampleWorld "private/image").1 = none ∧
    ¬ (Pull (NewClient inbandEngine) sampleWorld "private/image").1 ≠ none := by
  refine ⟨rfl, by decide, rfl, ?_⟩
  intro h
  exact h rfl

/-- C8, amended: Pull fails, with the engine's error, whenever the engine
reports an error for the pull as the error of the ImagePull request or as a
read error of the progress stream, whatever the client holds; in particular
for a client without stored credentials, whose request carries the encoding of
the empty credentials.  When the request succeeds and the progress stream ends
without a read error, Pull returns nil whatever the stream says, so an error
reported only as a message inside the stream is not noticed. -/
theorem Pull_fails_when_engine_fails (c : Client C H N S σ)
    (w : World C H N S σ) (imageRef : String) :
    (∀ e st,
      c.Client.ImagePull w.state imageRef
        { RegistryAuth := base64URLEncode (marshalAuthConfig c.authConfig) } =
          (.error e, st) →
      (Pull c w imageRef).1 = some e) ∧
    (∀ body e st,
      c.Client.ImagePull w.state imageRef
        { RegistryAuth := base64URLEncode (marshalAuthConfig c.authConfig) } =
          (.ok body, st) →
      body.err = some e →
      (Pull c w imageRef).1 = some e) ∧
    (∀ e st,
      c.Client.ImagePull w.state imageRef
        { RegistryAuth := [101, 51, 48, 61] } = (.error e, st) →
      (Pull (NewClient c.Client) w imageRef).1 = some e) ∧
    (∀ body st,
      c.Client.ImagePull w.state imageRef
        { RegistryAuth := base64URLEncode (marshalAuthConfig c.authConfig) } =
          (.ok body, st) →
      body.err = none →
      (Pull c w imageRef).1 = none) := by
  refine ⟨?_, ?_, ?_, ?_⟩
  · intro e st h
    simp [Pull, jsonMarshal, h]
  · intro body e st h he
    simp [Pull, jsonMarshal, h, ioCopyDiscard, he]
  · intro e st h
    have h2 : base64URLEncode (marshalAuthConfig ({} : AuthConfig)) =
        [101, 51, 48, 61] := by decide
    simp [Pull, jsonMarshal, NewClient, h2, h]
  · intro body st h he
    simp [Pull, jsonMarshal, h, ioCopyDiscard, he]

/-- C8, amended, on the sample engines: a pull without credentials that is
refused, a progress stream that breaks, and a refusal that only shows inside
the progress stream. -/
theorem Pull_fails_when_engine_fails_witness :
    (Pull sampleClient sampleWorld "private/image").1 =
      some (.engine "pull access denied") ∧
    (Pull sampleClientAuth sampleWorld "broken").1 =
      some (.engine "unexpected EOF") ∧
    (Pull (NewClient sampleClientAuth.Client) sampleWorld "private/image").1 =
      some (.engine "pull access denied") ∧
    (Pull (NewClient inbandEngine) sampleWorld "private/image").1 = none :=
  ⟨(Pull_fails_when_engine_fails sampleClient sampleWorld "private/image").1
      (.engine "pull access denied") 1 rfl,
   (Pull_fails_when_engine_fails sampleClientAuth sampleWorld "broken").2.1
      { data := [123, 125], err := some (.engine "unexpected EOF") }
      (.engine "unexpected EOF") 1 rfl rfl,
   (Pull_fails_when_engine_fails sampleClientAuth sampleWorld
      "private/image").2.2.1 (.engine "pull access denied") 1 rfl,
   (Pull_fails_when_engine_fails (NewClient inbandEngine) sampleWorld
      "private/image").2.2.2 { data := pullDenied } 1 rfl rfl⟩

/-- C9: when the pull request succeeds and the progress stream ends without a
read error, Pull reads the stream to its last byte, closes it and returns nil;
so for two such streams the result is the same, whatever their bytes. -/
theorem Pull_drains_progress (c c2 : Client C H N S σ)
    (w w2 : World C H N S σ) (imageRef imageRef2 : String)
    (body body2 : Stream) (st st2 : σ)
    (h : c.Client.ImagePull w.state imageRef
      { RegistryAuth := base64URLEncode (marshalAuthConfig c.authConfig) } =
        (.ok body, st))
    (h2 : c2.Client.ImagePull w2.state imageRef2
      { RegistryAuth := base64URLEncode (marshalAuthConfig c2.authConfig) } =
        (.ok body2, st2))
    (he : body.err = none) (he2 : body2.err = none) :
    (Pull c w imageRef).1 = (Pull c2 w2 imageRef2).1 ∧
    Pull c w imageRef =
      (none, c, ⟨st, w.trace ++ [.ImagePull imageRef
          { RegistryAuth := base64URLEncode (marshalAuthConfig c.authConfig) },
        .BodyRead body.data.length, .BodyClose]⟩) ∧
    Pull c2 w2 imageRef2 =
      (none, c2, ⟨st2, w2.trace ++ [.ImagePull imageRef2
          { RegistryAuth :=
              base64URLEncode (marshalAuthConfig c2.authConfig) },
        .BodyRead body2.data.length, .BodyClose]⟩) := by
  have e1 : Pull c w imageRef =
      (none, c, ⟨st, w.trace ++ [.ImagePull imageRef
          { RegistryAuth := base64URLEncode (marshalAuthConfig c.authConfig) },
        .BodyRead body.data.length, .BodyClose]⟩) := by
    simp [Pull, jsonMarshal, h, ioCopyDiscard, he]
  have e2 : Pull c2 w2 imageRef2 =
      (none, c2, ⟨st2, w2.trace ++ [.ImagePull imageRef2
          { RegistryAuth :=
              base64URLEncode (marshalAuthConfig c2.authConfig) },
        .BodyRead body2.data.length, .BodyClose]⟩) := by
    simp [Pull, jsonMarshal, h2, ioCopyDiscard, he2]
  exact ⟨by rw [e1, e2], e1, e2⟩

/-- C9 on the sample engine: two pulls whose progress streams differ. -/
theorem Pull_drains_progress_witness :
    (Pull sampleClientAuth sampleWorld "alpine").1 =
      (Pull sampleClientAuth ⟨5, []⟩ "busybox").1 ∧
    (Pull sampleClientAuth sampleWorld "alpine").1 = none ∧
    (Pull sampleClientAuth sampleWorld "alpine").2.2.trace =
      [.ImagePull "alpine"
          { RegistryAuth :=
              base64URLEncode (marshalAuthConfig sampleClientAuth.authConfig) },
        .BodyRead 3, .BodyClose] :=
  have hw := Pull_drains_progress sampleClientAuth sampleClientAuth sampleWorld
    ⟨5, []⟩ "alpine" "busybox" { data := [123, 125, 10] }
    { data := [123, 125, 10, 123, 125, 10] } 1 6 rfl rfl rfl rfl
  ⟨hw.1, congrArg Prod.fst hw.2.1,
    congrArg (fun r => r.2.2.trace) hw.2.1⟩

/-! ## Logs -/

/-- One round of `stdCopyLoop` on a stream that starts with a well-formed
frame: the payload goes to the buffer of its stream type and the loop goes on
with the rest. -/
theorem stdCopyLoop_frame (fuel : Nat) (f : Frame) (rest : Bytes)
    (rerr : Option GoError) (dstout dsterr : Bytes) (written : Nat)
    (hs : f.stream = 1 ∨ f.stream = 2) (hl : f.payload.length < 4294967296) :
    stdCopyLoop (fuel + 1) (encodeFrame f ++ rest) rerr dstout dsterr written =
      if f.stream = 2 then
        stdCopyLoop fuel rest rerr dstout (dsterr ++ f.payload)
          (written + f.payload.length)
      else
        stdCopyLoop fuel rest rerr (dstout ++ f.payload) dsterr
          (written + f.payload.length) := by
  have hsize : f.payload.length / 16777216 % 256 * 16777216
      + f.payload.length / 65536 % 256 * 65536
      + f.payload.length / 256 % 256 * 256 + f.payload.length % 256 =
        f.payload.length := by omega
  have hlen : (encodeFrame f ++ rest).length =
      f.payload.length + rest.length + 8 := by
    simp [encodeFrame]
  have hdrop : (encodeFrame f ++ rest).drop 8 = f.payload ++ rest := by
    simp [encodeFrame]
  have hdrop2 : (encodeFrame f ++ rest).drop (f.payload.length + 8) = rest := by
    rw [Nat.add_comm, ← List.drop_drop, hdrop, List.drop_left]
  have h0 : (encodeFrame f ++ rest).getD 0 0 = f.stream := by
    simp [encodeFrame]
  have h4 : (encodeFrame f ++ rest).getD 4 0 =
      f.payload.length / 16777216 % 256 := by simp [encodeFrame]
  have h5 : (encodeFrame f ++ rest).getD 5 0 =
      f.payload.length / 65536 % 256 := by simp [encodeFrame]
  have h6 : (encodeFrame f ++ rest).getD 6 0 =
      f.payload.length / 256 % 256 := by simp [encodeFrame]
  have h7 : (encodeFrame f ++ rest).getD 7 0 = f.payload.length % 256 := by
    simp [encodeFrame]
  have hnot8 : ¬ (encodeFrame f ++ rest).length < 8 := by omega
  have hnot3 : ¬ 3 < f.stream := by omega
  have hne3 : ¬ f.stream = 3 := by omega
  have hfit : ¬ (encodeFrame f ++ rest).length < f.payload.length + 8 := by
    omega
  simp only [stdCopyLoop, h0, h4, h5, h6, h7, hsize, hnot8, hnot3, hne3, hfit, hdrop,
    hdrop2, if_false, List.take_left]

/-- On a well-formed stream that ends without a read error, `stdCopyLoop` with
enough fuel appends the standard-output payloads to the first buffer and the
standard-error payloads to the second, in stream order, consumes the whole
stream and returns no error. -/
theorem stdCopyLoop_wellFormed (frames : List Frame) :
    ∀ (fuel : Nat) (dstout dsterr : Bytes) (written : Nat),
      WellFormed frames → frames.length < fuel →
      stdCopyLoop fuel (encodeFrames frames) none dstout dsterr written =
        ⟨dstout ++ payloads 1 frames, dsterr ++ payloads 2 frames,
          written + (payloads 1 frames).length + (payloads 2 frames).length,
          none, []⟩ := by
  induction frames with
  | nil =>
    intro fuel dstout dsterr written _ hf
    obtain ⟨k, rfl⟩ : ∃ k, fuel = k + 1 := ⟨fuel - 1, by simp at hf; omega⟩
    simp [stdCopyLoop, encodeFrames, payloads]
  | cons f fs ih =>
    intro fuel dstout dsterr written hw hf
    obtain ⟨k, rfl⟩ : ∃ k, fuel = k + 1 := ⟨fuel - 1, by simp at hf; omega⟩
    have hf1 := hw f (List.mem_cons_self f fs)
    have hw2 : WellFormed fs := fun g hg => hw g (List.mem_cons_of_mem f hg)
    have hk : fs.length < k := by simp at hf; omega
    rw [encodeFrames, stdCopyLoop_frame k f _ none dstout dsterr written
      hf1.1 hf1.2]
    rcases hf1.1 with h1 | h2
    · have hne : ¬ f.stream = 2 := by omega
      rw [if_neg hne, ih k _ _ _ hw2 hk]
      simp [payloads, h1, Nat.add_assoc]
    · rw [if_pos h2, ih k _ _ _ hw2 hk]
      simp [payloads, h2]
      omega

/-- Every frame takes at least eight bytes of the stream. -/
theorem length_le_encodeFrames (frames : List Frame) :
    frames.length ≤ (encodeFrames frames).length := by
  induction frames with
  | nil => simp [encodeFrames]
  | cons f fs ih => simp [encodeFrames, encodeFrame]; omega

/-- The result of `stdcopy.StdCopy` with empty buffers on a well-formed stream
that ends without a read error. -/
theorem stdCopy_wellFormed (frames : List Frame) (hw : WellFormed frames) :
    stdCopy [] [] { data := encodeFrames frames } =
      ⟨payloads 1 frames, payloads 2 frames,
        (payloads 1 frames).length + (payloads 2 frames).length, none, []⟩ := by
  have h := stdCopyLoop_wellFormed frames ((encodeFrames frames).length + 1)
    [] [] 0 hw (by have := length_le_encodeFrames frames; omega)
  simpa [stdCopy] using h

/-- When `stdCopyLoop` has more fuel than the stream has bytes, it returns
without an error only once it has consumed the stream to its end. -/
theorem stdCopyLoop_unread (fuel : Nat) :
    ∀ (buf : Bytes) (rerr : Option GoError) (dstout dsterr : Bytes)
      (written : Nat), buf.length < fuel →
      (stdCopyLoop fuel buf rerr dstout dsterr written).err = none →
      (stdCopyLoop fuel buf rerr dstout dsterr written).unread = [] := by
  induction fuel with
  | zero => intro buf _ _ _ _ h; omega
  | succ k ih =>
    intro buf rerr dstout dsterr written hlt
    simp only [stdCopyLoop]
    by_cases h8 : buf.length < 8
    · rw [if_pos h8]
      cases rerr <;> simp
    · rw [if_neg h8]
      by_cases h3 : 3 < buf.getD 0 0
      · rw [if_pos h3]; simp
      · rw [if_neg h3]
        split
        · cases rerr <;> simp
        · have hk : (buf.drop (buf.getD 4 0 * 16777216 + buf.getD 5 0 * 65536
              + buf.getD 6 0 * 256 + buf.getD 7 0 + 8)).length < k := by
            rw [List.length_drop]; omega
          split
          · simp
          · split
            · exact ih _ _ _ _ _ hk
            · exact ih _ _ _ _ _ hk

/-- The payloads of one stream type only depend on the frames of that type. -/
theorem payloads_filter (k : Nat) (frames : List Frame) :
    payloads k (frames.filter (fun f => f.stream = k)) = payloads k frames := by
  induction frames with
  | nil => rfl
  | cons f fs ih =>
    by_cases h : f.stream = k
    · simp [List.filter, payloads, h, ih]
    · simp [List.filter, payloads, h, ih]

/-- C5: for every well-formed multiplexed stream the engine returns (one that
ends without a read error), Logs returns as stdout the payloads of the
standard-output frames concatenated in stream order, as stderr those of the
standard-error frames, and no error.  So the stdout only depends on the
standard-output frames; a stream whose standard-output bytes are
`stdout works` and a newline and that has no standard-error bytes gives that
stdout and an empty stderr, and likewise for `stderr works` on standard
error. -/
theorem Logs_demultiplexes (c : Client C H N S σ) (w : World C H N S σ)
    (contID : String) (follow : Bool) :
    (∀ frames st, WellFormed frames →
      c.Client.ContainerLogs w.state contID
        { ShowStdout := true, ShowStderr := true, Follow := follow } =
          (.ok { data := encodeFrames frames }, st) →
      (Logs c w contID follow).1 =
        (payloads 1 frames, payloads 2 frames, none) ∧
      (Logs c w contID follow).1.1 =
        payloads 1 (frames.filter (fun f => f.stream = 1))) ∧
    (∀ frames st, WellFormed frames →
      payloads 1 frames = stdoutWorks → payloads 2 frames = [] →
      c.Client.ContainerLogs w.state contID
        { ShowStdout := true, ShowStderr := true, Follow := follow } =
          (.ok { data := encodeFrames frames }, st) →
      (Logs c w contID follow).1 = (stdoutWorks, [], none)) ∧
    (∀ frames st, WellFormed frames →
      payloads 1 frames = [] → payloads 2 frames = stderrWorks →
      c.Client.ContainerLogs w.state contID
        { ShowStdout := true, ShowStderr := true, Follow := follow } =
          (.ok { data := encodeFrames frames }, st) →
      (Logs c w contID follow).1 = ([], stderrWorks, none)) := by
  have main : ∀ frames st, WellFormed frames →
      c.Client.ContainerLogs w.state contID
        { ShowStdout := true, ShowStderr := true, Follow := follow } =
          (.ok { data := encodeFrames frames }, st) →
      (Logs c w contID follow).1 =
        (payloads 1 frames, payloads 2 frames, none) := by
    intro frames st hw h
    simp [Logs, h, stdCopy_wellFormed frames hw]
  refine ⟨?_, ?_, ?_⟩
  · intro frames st hw h
    refine ⟨main frames st hw h, ?_⟩
    rw [main frames st hw h, payloads_filter]
  · intro frames st hw h1 h2 h
    rw [main frames st hw h, h1, h2]
  · intro frames st hw h1 h2 h
    rw [main frames st hw h, h1, h2]

/-- C5 on the sample engine: the logs of the containers `c1`, `c3` and
`c4`. -/
theorem Logs_demultiplexes_witness :
    (Logs sampleClient sampleWorld "c1" true).1 =
      ([111, 117, 116, 33], [101, 114, 114], none) ∧
    (Logs sampleClient sampleWorld "c3" true).1 = (stdoutWorks, [], none) ∧
    (Logs sampleClient sampleWorld "c4" true).1 = ([], stderrWorks, none) :=
  ⟨((Logs_demultiplexes sampleClient sampleWorld "c1" true).1
      [⟨1, [111, 117, 116]⟩, ⟨2, [101, 114, 114]⟩, ⟨1, [33]⟩] 1
      (by unfold WellFormed; decide) rfl).1,
   (Logs_demultiplexes sampleClient sampleWorld "c3" true).2.1
      [⟨1, stdoutWorks⟩] 1 (by unfold WellFormed; decide) rfl rfl rfl,
   (Logs_demultiplexes sampleClient sampleWorld "c4" true).2.2
      [⟨2, stderrWorks⟩] 1 (by unfold WellFormed; decide) rfl rfl rfl⟩

/-- C10, as stated, fails in its last part: with follow set, Logs can return
before the stream has been read to its end.  The log stream of container `c2`
of the sample engine has 27 bytes and a frame of unknown stream type at offset
9; Logs returns the demultiplexing error after 17 bytes. -/
theorem Logs_returns_before_end :
    sampleClient.Client.ContainerLogs sampleWorld.state "c2"
      { ShowStdout := true, ShowStderr := true, Follow := true } =
        (.ok brokenLogs, 1) ∧
    brokenLogs.data.length = 27 ∧
    Logs sampleClient sampleWorld "c2" true =
      (([], [], some (.unrecognizedHeader 7)), sampleClient,
        ⟨1, [.ContainerLogs "c2"
            { ShowStdout := true, ShowStderr := true, Follow := true },
          .BodyRead 17, .BodyClose]⟩) ∧
    ¬ (Logs sampleClient sampleWorld "c2" true).2.2.trace =
      [.ContainerLogs "c2"
          { ShowStdout := true, ShowStderr := true, Follow := true },
        .BodyRead brokenLogs.data.length, .BodyClose] := by
  have h : Logs sampleClient sampleWorld "c2" true =
      (([], [], some (.unrecognizedHeader 7)), sampleClient,
        ⟨1, [.ContainerLogs "c2"
            { ShowStdout := true, ShowStderr := true, Follow := true },
          .BodyRead 17, .BodyClose]⟩) := rfl
  refine ⟨rfl, rfl, h, ?_⟩
  rw [h]
  simp [brokenLogs]

/-- C10, amended: Logs sends exactly one ContainerLogs request, for the given
identifier, asking for standard output and standard error, with Follow equal
to the follow argument and every other option at its default (no time window,
no timestamps, no tail limit, no details), and nothing else but reading and
closing the stream it gets.  With follow set (and without), Logs returns
without an error only after the stream has been read to its end; a
demultiplexing error makes it return at the offending frame. -/
theorem Logs_request (c : Client C H N S σ) (w : World C H N S σ)
    (contID : String) (follow : Bool) :
    (∀ e st,
      c.Client.ContainerLogs w.state contID
        { ShowStdout := true, ShowStderr := true, Since := "", Until := "",
          Timestamps := false, Follow := follow, Tail := "",
          Details := false } = (.error e, st) →
      (Logs c w contID follow).2.2.trace =
        w.trace ++ [.ContainerLogs contID
          { ShowStdout := true, ShowStderr := true, Since := "", Until := "",
            Timestamps := false, Follow := follow, Tail := "",
            Details := false }]) ∧
    (∀ logs st,
      c.Client.ContainerLogs w.state contID
        { ShowStdout := true, ShowStderr := true, Since := "", Until := "",
          Timestamps := false, Follow := follow, Tail := "",
          Details := false } = (.ok logs, st) →
      (Logs c w contID follow).2.2.trace =
        w.trace ++ [.ContainerLogs contID
            { ShowStdout := true, ShowStderr := true, Since := "",
              Until := "", Timestamps := false, Follow := follow, Tail := "",
              Details := false },
          .BodyRead (logs.data.length - (stdCopy [] [] logs).unread.length),
          .BodyClose] ∧
      ((Logs c w contID follow).1.2.2 = none →
        (Logs c w contID follow).2.2.trace =
          w.trace ++ [.ContainerLogs contID
              { ShowStdout := true, ShowStderr := true, Since := "",
                Until := "", Timestamps := false, Follow := follow,
                Tail := "", Details := false },
            .BodyRead logs.data.length, .BodyClose])) := by
  refine ⟨?_, ?_⟩
  · intro e st h
    simp [Logs, h]
  · intro logs st h
    rcases he : (stdCopy [] [] logs).err with _ | e
    · have hu : (stdCopy [] [] logs).unread = [] :=
        stdCopyLoop_unread _ _ _ _ _ _ (Nat.lt_succ_self _) he
      simp [Logs, h, he, hu]
    · simp [Logs, h, he]

/-- C10, amended, on the sample engine: the logs of an unknown container and
of the container `c1`. -/
theorem Logs_request_witness :
    (Logs sampleClient sampleWorld "c9" false).2.2.trace =
      [.ContainerLogs "c9" { ShowStdout := true, ShowStderr := true }] ∧
    (Logs sampleClient sampleWorld "c1" true).2.2.trace =
      [.ContainerLogs "c1"
          { ShowStdout := true, ShowStderr := true, Follow := true },
        .BodyRead 31, .BodyClose] :=
  ⟨(Logs_request sampleClient sampleWorld "c9" false).1
      (.engine "No such container") 1 rfl,
   ((Logs_request sampleClient sampleWorld "c1" true).2 sampleLogs 1 rfl).2
      rfl⟩

/-! ## The registry-auth value -/

/-- The URL alphabet is read back: a six-bit value survives `encodeURL` and
`decodeURL`, and its character is never the padding character. -/
theorem decodeURL_encodeURL (n : Nat) (h : n < 64) :
    decodeURL (encodeURL n) = some n ∧ encodeURL n ≠ 61 := by
  unfold encodeURL decodeURL
  split_ifs <;> first | omega | (refine ⟨?_, by omega⟩; congr 1; omega)

/-- Decoding undoes `base64URLEncode` on byte sequences. -/
theorem base64URLDecode_encode (s : Bytes) :
    (∀ b ∈ s, b < 256) → base64URLDecode (base64URLEncode s) = some s := by
  induction s using base64URLEncode.induct with
  | case1 => intro _; rfl
  | case2 a =>
    intro h
    have ha : a < 256 := h a (by simp)
    have h0 := decodeURL_encodeURL (a * 65536 / 262144 % 64) (by omega)
    have h1 := decodeURL_encodeURL (a * 65536 / 4096 % 64) (by omega)
    simp only [base64URLEncode, base64URLDecode, h0.1, h1.1]
    simp
    omega
  | case3 a b =>
    intro h
    have ha : a < 256 := h a (by simp)
    have hb : b < 256 := h b (by simp)
    have h0 := decodeURL_encodeURL ((a * 65536 + b * 256) / 262144 % 64)
      (by omega)
    have h1 := decodeURL_encodeURL ((a * 65536 + b * 256) / 4096 % 64)
      (by omega)
    have h2 := decodeURL_encodeURL ((a * 65536 + b * 256) / 64 % 64) (by omega)
    simp only [base64URLEncode, base64URLDecode, h0.1, h1.1, h2.1]
    simp [h2.2]
    omega
  | case4 a b c rest ih =>
    intro h
    have ha : a < 256 := h a (by simp)
    have hb : b < 256 := h b (by simp)
    have hc : c < 256 := h c (by simp)
    have hr : ∀ x ∈ rest, x < 256 := fun x hx => h x (by simp [hx])
    have h0 := decodeURL_encodeURL
      ((a * 65536 + b * 256 + c) / 262144 % 64) (by omega)
    have h1 := decodeURL_encodeURL
      ((a * 65536 + b * 256 + c) / 4096 % 64) (by omega)
    have h2 := decodeURL_encodeURL
      ((a * 65536 + b * 256 + c) / 64 % 64) (by omega)
    have h3 := decodeURL_encodeURL ((a * 65536 + b * 256 + c) % 64) (by omega)
    simp only [base64URLEncode, List.cons_append, List.nil_append,
      base64URLDecode, h0.1, h1.1, h2.1, h3.1, ih hr]
    simp only [h3.2, and_false, if_false, List.append_eq, List.nil_append]
    rw [ih hr]
    simp
    omega

/-- The value of `decodeRune` on a well-formed two-byte encoding. -/
theorem decodeRune_two (b s1 : Nat) (t : Bytes) (h1 : 0xC2 ≤ b) (h2 : b < 0xE0)
    (h3 : 0x80 ≤ s1) (h4 : s1 ≤ 0xBF) :
    decodeRune (b :: s1 :: t) = (b % 32 * 64 + s1 % 64, 2) := by
  have a1 : ¬ b < 0x80 := by omega
  have a2 : ¬ (b < 0xC2 ∨ 0xF4 < b) := by omega
  have a4 : ¬ b = 0xE0 := by omega
  have a5 : ¬ b = 0xF0 := by omega
  have a6 : ¬ b = 0xED := by omega
  have a7 : ¬ b = 0xF4 := by omega
  have a8 : ¬ (s1 < 0x80 ∨ 0xBF < s1) := by omega
  have a9 : ¬ ((s1 :: t).length + 1 < 2) := by simp
  simp only [decodeRune, a1, a2, h2, a4, a5, a6, a7, a8, a9, if_true, if_false,
    Nat.le_refl]

/-- The value of `decodeRune` on a well-formed three-byte encoding. -/
theorem decodeRune_three (b s1 s2 : Nat) (t : Bytes) (h1 : 0xE0 ≤ b)
    (h2 : b < 0xF0)
    (h3 : (if b = 0xE0 then 0xA0 else 0x80) ≤ s1)
    (h4 : s1 ≤ (if b = 0xED then 0x9F else 0xBF))
    (h5 : 0x80 ≤ s2) (h6 : s2 ≤ 0xBF) :
    decodeRune (b :: s1 :: s2 :: t) =
      (b % 16 * 4096 + s1 % 64 * 64 + s2 % 64, 3) := by
  have a1 : ¬ b < 0x80 := by omega
  have a2 : ¬ (b < 0xC2 ∨ 0xF4 < b) := by omega
  have a3 : ¬ b < 0xE0 := by omega
  have a5 : ¬ b = 0xF0 := by omega
  have a7 : ¬ b = 0xF4 := by omega
  have a8 : ¬ (s2 < 0x80 ∨ 0xBF < s2) := by omega
  have a9 : ¬ ((s1 :: s2 :: t).length + 1 < 3) := by simp
  have a10 : ¬ (3 ≤ 2) := by omega
  have a11 : ¬ (s1 < (if b = 0xE0 then 0xA0 else 0x80) ∨
      (if b = 0xED then 0x9F else 0xBF) < s1) := by omega
  simp only [decodeRune, a1, a2, a3, h2, a5, a7, a8, a9, a10, a11, if_true,
    if_false, Nat.le_refl]

/-- The value of `decodeRune` on a well-formed four-byte encoding. -/
theorem decodeRune_four (b s1 s2 s3 : Nat) (t : Bytes) (h1 : 0xF0 ≤ b)
    (h2 : b ≤ 0xF4)
    (h3 : (if b = 0xF0 then 0x90 else 0x80) ≤ s1)
    (h4 : s1 ≤ (if b = 0xF4 then 0x8F else 0xBF))
    (h5 : 0x80 ≤ s2) (h6 : s2 ≤ 0xBF) (h7 : 0x80 ≤ s3) (h8 : s3 ≤ 0xBF) :
    decodeRune (b :: s1 :: s2 :: s3 :: t) =
      (b % 8 * 262144 + s1 % 64 * 4096 + s2 % 64 * 64 + s3 % 64, 4) := by
  have a1 : ¬ b < 0x80 := by omega
  have a2 : ¬ (b < 0xC2 ∨ 0xF4 < b) := by omega
  have a3 : ¬ b < 0xE0 := by omega
  have a4 : ¬ b < 0xF0 := by omega
  have a5 : ¬ b = 0xE0 := by omega
  have a6 : ¬ b = 0xED := by omega
  have a8 : ¬ (s2 < 0x80 ∨ 0xBF < s2) := by omega
  have a12 : ¬ (s3 < 0x80 ∨ 0xBF < s3) := by omega
  have a9 : ¬ ((s1 :: s2 :: s3 :: t).length + 1 < 4) := by simp
  have a10 : ¬ (4 ≤ 2) := by omega
  have a13 : ¬ (4 ≤ 3) := by omega
  have a11 : ¬ (s1 < (if b = 0xF0 then 0x90 else 0x80) ∨
      (if b = 0xF4 then 0x8F else 0xBF) < s1) := by omega
  simp only [decodeRune, a1, a2, a3, a4, a5, a6, a8, a9, a10, a11, a12, a13,
    if_true, if_false]

/-- A non-ASCII lead byte decodes without an error only on one of the three
well-formed multi-byte shapes. -/
theorem decodeRune_cases (b : Nat) (rest : Bytes) (hb : 0x80 ≤ b)
    (hv : ¬ ((decodeRune (b :: rest)).1 = 0xFFFD ∧
      (decodeRune (b :: rest)).2 = 1)) :
    (∃ s1 t, rest = s1 :: t ∧ 0xC2 ≤ b ∧ b < 0xE0 ∧ 0x80 ≤ s1 ∧ s1 ≤ 0xBF) ∨
    (∃ s1 s2 t, rest = s1 :: s2 :: t ∧ 0xE0 ≤ b ∧ b < 0xF0 ∧
      (if b = 0xE0 then 0xA0 else 0x80) ≤ s1 ∧
      s1 ≤ (if b = 0xED then 0x9F else 0xBF) ∧ 0x80 ≤ s2 ∧ s2 ≤ 0xBF) ∨
    (∃ s1 s2 s3 t, rest = s1 :: s2 :: s3 :: t ∧ 0xF0 ≤ b ∧ b ≤ 0xF4 ∧
      (if b = 0xF0 then 0x90 else 0x80) ≤ s1 ∧
      s1 ≤ (if b = 0xF4 then 0x8F else 0xBF) ∧ 0x80 ≤ s2 ∧ s2 ≤ 0xBF ∧
      0x80 ≤ s3 ∧ s3 ≤ 0xBF) := by
  have a1 : ¬ b < 0x80 := by omega
  by_cases a2 : b < 0xC2 ∨ 0xF4 < b
  · exfalso; apply hv
    simp only [decodeRune, a1, a2, if_true, if_false]
    constructor <;> first | rfl | trivial
  by_cases c2 : b < 0xE0
  · have e1 : ¬ b = 0xE0 := by omega
    have e2 : ¬ b = 0xF0 := by omega
    have e3 : ¬ b = 0xED := by omega
    have e4 : ¬ b = 0xF4 := by omega
    rcases rest with _ | ⟨s1, t⟩
    all_goals
      simp only [decodeRune, a1, a2, c2, e1, e2, e3, e4, if_true, if_false,
        List.length_cons, List.length_nil, Nat.le_refl] at hv
      split_ifs at hv
      all_goals first
        | (exfalso; apply hv; constructor <;> first | rfl | trivial)
        | (exfalso; omega)
        | (left; exact ⟨s1, _, rfl, by omega, by omega, by omega, by omega⟩)
  by_cases c3 : b < 0xF0
  · have e2 : ¬ b = 0xF0 := by omega
    have e4 : ¬ b = 0xF4 := by omega
    have n2 : ¬ (3 ≤ 2) := by omega
    rcases rest with _ | ⟨s1, _ | ⟨s2, t⟩⟩
    all_goals
      simp only [decodeRune, a1, a2, c2, c3, e2, e4, n2, if_true, if_false,
        List.length_cons, List.length_nil, Nat.le_refl] at hv
      split_ifs at hv
      all_goals first
        | (exfalso; apply hv; constructor <;> first | rfl | trivial)
        | (exfalso; omega)
        | (right; left
           exact ⟨s1, s2, _, rfl, by omega, by omega, by split_ifs; all_goals omega,
             by split_ifs; all_goals omega, by omega, by omega⟩)
  · have e1 : ¬ b = 0xE0 := by omega
    have e3 : ¬ b = 0xED := by omega
    have n2 : ¬ (4 ≤ 2) := by omega
    have n3 : ¬ (4 ≤ 3) := by omega
    rcases rest with _ | ⟨s1, _ | ⟨s2, _ | ⟨s3, t⟩⟩⟩
    all_goals
      simp only [decodeRune, a1, a2, c2, c3, e1, e3, n2, n3, if_true, if_false,
        List.length_cons, List.length_nil, Nat.le_refl] at hv
      split_ifs at hv
      all_goals first
        | (exfalso; apply hv; constructor <;> first | rfl | trivial)
        | (exfalso; omega)
        | (right; right
           exact ⟨s1, s2, s3, _, rfl, by omega, by omega,
             by split_ifs; all_goals omega, by split_ifs; all_goals omega, by omega,
             by omega, by omega, by omega⟩)


/-- A multi-byte rune that decodes without an error is re-encoded to the
bytes it was read from, and its decoding only looks at those bytes. -/
theorem decodeRune_valid (b : Nat) (rest : Bytes) (hb : 0x80 ≤ b)
    (hv : ¬ ((decodeRune (b :: rest)).1 = 0xFFFD ∧
      (decodeRune (b :: rest)).2 = 1)) :
    ∃ p q, rest = p ++ q ∧ (decodeRune (b :: rest)).2 = p.length + 1 ∧
      encodeRune (decodeRune (b :: rest)).1 = b :: p ∧
      ∀ t, decodeRune (b :: (p ++ t)) = decodeRune (b :: rest) := by
  rcases decodeRune_cases b rest hb hv with
    ⟨s1, t, rfl, h1, h2, h3, h4⟩ |
    ⟨s1, s2, t, rfl, h1, h2, h3, h4, h5, h6⟩ |
    ⟨s1, s2, s3, t, rfl, h1, h2, h3, h4, h5, h6, h7, h8⟩
  · refine ⟨[s1], t, rfl, ?_, ?_, ?_⟩
    · rw [decodeRune_two b s1 t h1 h2 h3 h4]; rfl
    · rw [decodeRune_two b s1 t h1 h2 h3 h4]
      have c1 : ¬ (b % 32 * 64 + s1 % 64 < 0x80) := by omega
      have c2 : b % 32 * 64 + s1 % 64 < 0x800 := by omega
      simp only [encodeRune, c1, c2, if_true, if_false]
      congr 1
      · omega
      · congr 1; omega
    · intro t2
      rw [decodeRune_two b s1 t h1 h2 h3 h4]
      exact decodeRune_two b s1 t2 h1 h2 h3 h4
  · have e3 := decodeRune_three b s1 s2 t h1 h2 h3 h4 h5 h6
    have e3t := fun t2 => decodeRune_three b s1 s2 t2 h1 h2 h3 h4 h5 h6
    have d1 : 0x80 ≤ s1 := by split_ifs at h3 <;> omega
    have d2 : s1 ≤ 0xBF := by split_ifs at h4 <;> omega
    have d3 : b = 0xE0 → 0xA0 ≤ s1 := by
      intro e; rw [if_pos e] at h3; exact h3
    have d4 : b = 0xED → s1 ≤ 0x9F := by
      intro e; rw [if_pos e] at h4; exact h4
    clear h3 h4 hv
    refine ⟨[s1, s2], t, rfl, ?_, ?_, ?_⟩
    · rw [e3]; rfl
    · rw [e3]
      have c1 : ¬ (b % 16 * 4096 + s1 % 64 * 64 + s2 % 64 < 0x80) := by omega
      have c2 : ¬ (b % 16 * 4096 + s1 % 64 * 64 + s2 % 64 < 0x800) := by omega
      have c3 : ¬ ((0xD800 ≤ b % 16 * 4096 + s1 % 64 * 64 + s2 % 64 ∧
          b % 16 * 4096 + s1 % 64 * 64 + s2 % 64 ≤ 0xDFFF) ∨
          0x10FFFF < b % 16 * 4096 + s1 % 64 * 64 + s2 % 64) := by omega
      have c4 : b % 16 * 4096 + s1 % 64 * 64 + s2 % 64 < 0x10000 := by omega
      simp only [encodeRune, c1, c2, c3, c4, if_true, if_false]
      congr 1
      · omega
      · congr 1
        · omega
        · congr 1; omega
    · intro t2
      rw [e3]
      exact e3t t2
  · have e4 := decodeRune_four b s1 s2 s3 t h1 h2 h3 h4 h5 h6 h7 h8
    have e4t := fun t2 => decodeRune_four b s1 s2 s3 t2 h1 h2 h3 h4 h5 h6 h7 h8
    have d1 : 0x80 ≤ s1 := by split_ifs at h3 <;> omega
    have d2 : s1 ≤ 0xBF := by split_ifs at h4 <;> omega
    have d3 : b = 0xF0 → 0x90 ≤ s1 := by
      intro e; rw [if_pos e] at h3; exact h3
    have d4 : b = 0xF4 → s1 ≤ 0x8F := by
      intro e; rw [if_pos e] at h4; exact h4
    clear h3 h4 hv
    refine ⟨[s1, s2, s3], t, rfl, ?_, ?_, ?_⟩
    · rw [e4]; rfl
    · rw [e4]
      have c1 : ¬ (b % 8 * 262144 + s1 % 64 * 4096 + s2 % 64 * 64 + s3 % 64
          < 0x80) := by omega
      have c2 : ¬ (b % 8 * 262144 + s1 % 64 * 4096 + s2 % 64 * 64 + s3 % 64
          < 0x800) := by omega
      have c3 : ¬ ((0xD800 ≤ b % 8 * 262144 + s1 % 64 * 4096 + s2 % 64 * 64
            + s3 % 64 ∧
          b % 8 * 262144 + s1 % 64 * 4096 + s2 % 64 * 64 + s3 % 64 ≤ 0xDFFF) ∨
          0x10FFFF < b % 8 * 262144 + s1 % 64 * 4096 + s2 % 64 * 64
            + s3 % 64) := by omega
      have c4 : ¬ (b % 8 * 262144 + s1 % 64 * 4096 + s2 % 64 * 64 + s3 % 64
          < 0x10000) := by omega
      simp only [encodeRune, c1, c2, c3, c4, if_true, if_false]
      congr 1
      · omega
      · congr 1
        · omega
        · congr 1
          · omega
          · congr 1; omega
    · intro t2
      rw [e4]
      exact e4t t2

/-- A hexadecimal digit is read back. -/
theorem hexVal_hexDigit (n : Nat) (h : n < 16) : hexVal (hexDigit n) = some n := by
  unfold hexDigit hexVal
  split_ifs <;> first | omega | (congr 1; omega)

/-- The value of `prepend` on a successful result. -/
theorem prepend_some (p s t : Bytes) : prepend p (some (s, t)) = some (p ++ s, t) := rfl

/-- An ASCII byte is a rune of width 1. -/
theorem decodeRune_ascii (b : Nat) (rest : Bytes) (hb : b < 0x80) :
    decodeRune (b :: rest) = (b, 1) := by
  simp only [decodeRune, hb, if_true]

/-- One round of `decodeStringLoop` on a one-character escape. -/
theorem decodeStringLoop_backslash (k e b : Nat) (x : Bytes) (h : e ≠ 117)
    (hu : unescape e = some b) :
    decodeStringLoop (k + 1) (92 :: e :: x) =
      prepend [b] (decodeStringLoop k x) := by
  have h34 : ¬ (92 = 34) := by decide
  simp only [decodeStringLoop, h34, if_false, if_true, h, hu]

/-- One round of `decodeStringLoop` on a `\uXXXX` escape that is not a
surrogate. -/
theorem decodeStringLoop_u (k h1 h2 h3 h4 v1 v2 v3 v4 : Nat) (x : Bytes)
    (e1 : hexVal h1 = some v1) (e2 : hexVal h2 = some v2)
    (e3 : hexVal h3 = some v3) (e4 : hexVal h4 = some v4)
    (hs : ¬ (0xD800 ≤ v1 * 4096 + v2 * 256 + v3 * 16 + v4 ∧
      v1 * 4096 + v2 * 256 + v3 * 16 + v4 < 0xE000)) :
    decodeStringLoop (k + 1) (92 :: 117 :: h1 :: h2 :: h3 :: h4 :: x) =
      prepend (encodeRune (v1 * 4096 + v2 * 256 + v3 * 16 + v4))
        (decodeStringLoop k x) := by
  have h34 : ¬ (92 = 34) := by decide
  simp only [decodeStringLoop, h34, if_false, if_true, getu4, e1, e2, e3, e4,
    hs, List.drop_succ_cons, List.drop_zero]

/-- One round of `decodeStringLoop` on an ASCII byte that stands for itself. -/
theorem decodeStringLoop_plain (k b : Nat) (x : Bytes) (h1 : b ≠ 34)
    (h2 : b ≠ 92) (h3 : 0x20 ≤ b) (h4 : b < 0x80) :
    decodeStringLoop (k + 1) (b :: x) = prepend [b] (decodeStringLoop k x) := by
  have h5 : ¬ b < 0x20 := by omega
  simp only [decodeStringLoop, h1, h2, h4, h5, if_false, if_true]

/-- One round of `decodeStringLoop` on a non-ASCII byte. -/
theorem decodeStringLoop_rune (k b : Nat) (x : Bytes) (h : 0x80 ≤ b) :
    decodeStringLoop (k + 1) (b :: x) =
      prepend (encodeRune (decodeRune (b :: x)).1)
        (decodeStringLoop k ((b :: x).drop (decodeRune (b :: x)).2)) := by
  have h1 : ¬ b = 34 := by omega
  have h2 : ¬ b = 92 := by omega
  have h4 : ¬ b < 0x80 := by omega
  have h5 : ¬ b < 0x20 := by omega
  simp only [decodeStringLoop, h1, h2, h4, h5, if_false]

/-- The closing quote ends `decodeStringLoop`. -/
theorem decodeStringLoop_quote (k : Nat) (x : Bytes) :
    decodeStringLoop (k + 1) (34 :: x) = some ([], x) := by
  simp only [decodeStringLoop, if_true]


/-- The escape written for an ASCII byte is read back as that byte. -/
theorem decodeStringLoop_escape (k b : Nat) (x : Bytes) (hb : b < 0x80) :
    decodeStringLoop (k + 1) (92 :: (escapeASCII b ++ x)) =
      prepend [b] (decodeStringLoop k x) := by
  unfold escapeASCII
  split_ifs with h1 h2 h3 h4
  · have hu : unescape b = some b := by
      rcases h1 with rfl | rfl <;> rfl
    exact decodeStringLoop_backslash k b b x (by omega) hu
  · subst h2
    exact decodeStringLoop_backslash k 110 10 x (by decide) rfl
  · subst h3
    exact decodeStringLoop_backslash k 114 13 x (by decide) rfl
  · subst h4
    exact decodeStringLoop_backslash k 116 9 x (by decide) rfl
  · have e := decodeStringLoop_u k 48 48 (hexDigit (b / 16)) (hexDigit (b % 16))
      0 0 (b / 16) (b % 16) x rfl rfl (hexVal_hexDigit _ (by omega))
      (hexVal_hexDigit _ (by omega)) (by omega)
    have hv : 0 * 4096 + 0 * 256 + b / 16 * 16 + b % 16 = b := by omega
    rw [hv] at e
    have he : encodeRune b = [b] := by simp only [encodeRune, hb, if_true]
    rw [he] at e
    exact e

/-- The string decoder undoes the string encoder on valid UTF-8: the text
written for `s`, followed by the closing quote, is read back as `s`. -/
theorem decodeStringLoop_encode (n : Nat) :
    ∀ s : Bytes, validLoop n s = true → ∀ (m : Nat) (tail : Bytes),
      (encodeStringLoop n s).length < m →
      decodeStringLoop m (encodeStringLoop n s ++ 34 :: tail) =
        some (s, tail) := by
  induction n with
  | zero =>
    intro s hv m tail hm
    cases s with
    | nil =>
      obtain ⟨k, rfl⟩ : ∃ k, m = k + 1 := ⟨m - 1, by omega⟩
      exact decodeStringLoop_quote k tail
    | cons b rest => simp [validLoop] at hv
  | succ n ih =>
    intro s hv m tail hm
    cases s with
    | nil =>
      obtain ⟨k, rfl⟩ : ∃ k, m = k + 1 := ⟨m - 1, by omega⟩
      exact decodeStringLoop_quote k tail
    | cons b rest =>
      obtain ⟨k, rfl⟩ : ∃ k, m = k + 1 := ⟨m - 1, by omega⟩
      by_cases hb : b < 0x80
      · have hd := decodeRune_ascii b rest hb
        have hne : ¬ b = 0xFFFD := by omega
        have hvr : validLoop n rest = true := by
          simpa only [validLoop, hd, hne, false_and, if_false,
            List.drop_succ_cons, List.drop_zero] using hv
        simp only [encodeStringLoop, hb, if_true] at hm ⊢
        by_cases hs : htmlSafeSet b = true
        · simp only [hs, if_true, List.cons_append, List.nil_append,
            List.length_cons] at hm ⊢
          have hs2 : 0x20 ≤ b ∧ b ≠ 34 ∧ b ≠ 92 := by
            simp [htmlSafeSet] at hs
            omega
          rw [decodeStringLoop_plain k b _ hs2.2.1 hs2.2.2 hs2.1 hb,
            ih rest hvr k tail (by omega), prepend_some]
          rfl
        · simp only [hs, Bool.false_eq_true, if_false, List.cons_append,
            List.append_assoc, List.length_cons, List.length_append] at hm ⊢
          rw [decodeStringLoop_escape k b _ hb,
            ih rest hvr k tail (by omega), prepend_some]
          rfl
      · have hb2 : 0x80 ≤ b := by omega
        have hne : ¬ ((decodeRune (b :: rest)).1 = 0xFFFD ∧
            (decodeRune (b :: rest)).2 = 1) := by
          intro h
          simp only [validLoop, h, if_true] at hv
          exact Bool.false_ne_true hv
        obtain ⟨p, q, rfl, h2, h3, h4⟩ := decodeRune_valid b rest hb2 hne
        have hdrop : (b :: (p ++ q)).drop (decodeRune (b :: (p ++ q))).2 = q := by
          rw [h2, List.drop_succ_cons, List.drop_left]
        have htake : (b :: (p ++ q)).take (decodeRune (b :: (p ++ q))).2 =
            b :: p := by
          rw [h2, List.take_succ_cons, List.take_left]
        have hvr : validLoop n q = true := by
          simpa only [validLoop, hne, if_false, hdrop] using hv
        simp only [encodeStringLoop, hb, if_false, hne, hdrop, htake] at hm ⊢
        by_cases hls : (decodeRune (b :: (p ++ q))).1 = 0x2028 ∨
            (decodeRune (b :: (p ++ q))).1 = 0x2029
        · simp only [hls, if_true, List.cons_append, List.nil_append,
            List.length_cons] at hm ⊢
          have e := decodeStringLoop_u k 50 48 50
            (hexDigit ((decodeRune (b :: (p ++ q))).1 % 16)) 2 0 2
            ((decodeRune (b :: (p ++ q))).1 % 16)
            (encodeStringLoop n q ++ 34 :: tail) rfl rfl rfl
            (hexVal_hexDigit _ (by omega)) (by omega)
          have hval : 2 * 4096 + 0 * 256 + 2 * 16 +
              (decodeRune (b :: (p ++ q))).1 % 16 =
                (decodeRune (b :: (p ++ q))).1 := by omega
          rw [hval, h3] at e
          rw [e, ih q hvr k tail (by omega), prepend_some]
          rfl
        · simp only [hls, if_false, List.cons_append, List.append_assoc,
            List.length_cons, List.length_append] at hm ⊢
          rw [decodeStringLoop_rune k b _ hb2, h4, h3, h2,
            List.drop_succ_cons, List.drop_left,
            ih q hvr k tail (by omega), prepend_some]
          rfl

/-- A JSON string written by `encodeString` for valid UTF-8 is read back. -/
theorem decodeString_encodeString (v tail : Bytes) (hv : ValidString v) :
    decodeString (encodeString v ++ tail) = some (v, tail) := by
  have h := decodeStringLoop_encode v.length v hv
    (encodeStringLoop v.length v ++ 34 :: tail).length tail
    (by simp)
  simpa [encodeString, decodeString] using h

/-- A plain key between quotes is read back. -/
theorem decodeString_key (k tail : Bytes) (hk : PlainKey k) :
    decodeString (34 :: (k ++ 34 :: tail)) = some (k, tail) := by
  have h := decodeString_encodeString k tail hk.2.1
  simpa [encodeString, hk.1] using h

/-- A member written by the struct encoder is read back and stored. -/
theorem decodeMember_encode (k v tail : Bytes) (a : AuthConfig)
    (hk : PlainKey k) (hv : ValidString v) :
    decodeMember (34 :: (k ++ 34 :: 58 :: (encodeString v ++ tail))) a =
      some (setField a k v, tail) := by
  simp only [decodeMember, decodeString_key k _ hk,
    decodeString_encodeString v tail hv]

/-- The members written after the first one, and the closing brace, are read
back: the decoder stores exactly the fields that are not empty. -/
theorem decodeTail_encodeMembers (fs : List (Bytes × Bytes)) :
    (∀ kv ∈ fs, PlainKey kv.1 ∧ ValidString kv.2) →
    ∀ (m : Nat) (a : AuthConfig) (tail : Bytes),
      (encodeMembers false fs).length < m →
      decodeTail m (encodeMembers false fs ++ 125 :: tail) a =
        some (applyFields a fs, tail) := by
  induction fs with
  | nil =>
    intro _ m a tail hm
    obtain ⟨j, rfl⟩ : ∃ j, m = j + 1 := ⟨m - 1, by omega⟩
    simp [encodeMembers, decodeTail, applyFields]
  | cons kv fs ih =>
    obtain ⟨k, v⟩ := kv
    intro h m a tail hm
    have hfs : ∀ kv ∈ fs, PlainKey kv.1 ∧ ValidString kv.2 :=
      fun kv hkv => h kv (List.mem_cons_of_mem _ hkv)
    have hkv := h (k, v) (List.mem_cons_self _ _)
    by_cases hv : v = []
    · simp only [encodeMembers, hv, if_true, applyFields] at hm ⊢
      exact ih hfs m a tail hm
    · obtain ⟨j, rfl⟩ : ∃ j, m = j + 1 := ⟨m - 1, by omega⟩
      simp only [encodeMembers, hv, if_false, applyFields, List.cons_append,
        List.nil_append, List.append_assoc, List.length_cons,
        List.length_append, Bool.false_eq_true] at hm ⊢
      simp only [decodeTail, decodeMember_encode k v _ a hkv.1 hkv.2]
      exact ih hfs j _ tail (by omega)


/-- The text of the members starts with the first field that is not empty, if
there is one. -/
theorem encodeMembers_true (fs : List (Bytes × Bytes)) :
    (encodeMembers true fs = [] ∧ ∀ a, applyFields a fs = a) ∨
    (∃ k v post, v ≠ [] ∧ (k, v) ∈ fs ∧ (∀ kv ∈ post, kv ∈ fs) ∧
      encodeMembers true fs =
        34 :: (k ++ 34 :: 58 :: (encodeString v ++ encodeMembers false post)) ∧
      ∀ a, applyFields a fs = applyFields (setField a k v) post) := by
  induction fs with
  | nil => left; exact ⟨rfl, fun _ => rfl⟩
  | cons kv fs ih =>
    obtain ⟨k, v⟩ := kv
    by_cases hv : v = []
    · rcases ih with ⟨h1, h2⟩ | ⟨k2, v2, post, h1, h2, h3, h4, h5⟩
      · left
        refine ⟨?_, ?_⟩
        · simp only [encodeMembers, hv, if_true, h1]
        · intro a; simp only [applyFields, hv, if_true, h2]
      · right
        refine ⟨k2, v2, post, h1, List.mem_cons_of_mem _ h2,
          fun kv hkv => List.mem_cons_of_mem _ (h3 kv hkv), ?_, ?_⟩
        · simp only [encodeMembers, hv, if_true, h4]
        · intro a; simp only [applyFields, hv, if_true, h5]
    · right
      refine ⟨k, v, fs, hv, List.mem_cons_self _ _,
        fun kv hkv => List.mem_cons_of_mem _ hkv, ?_, ?_⟩
      · simp only [encodeMembers, hv, if_false, if_true, List.nil_append,
          List.cons_append, List.append_assoc]
      · intro a; simp only [applyFields, hv, if_false]

/-- Decoding the object written for the fields `fs` stores the fields that are
not empty into the zero value. -/
theorem jsonUnmarshal_members (fs : List (Bytes × Bytes))
    (h : ∀ kv ∈ fs, PlainKey kv.1 ∧ ValidString kv.2) :
    jsonUnmarshal (123 :: (encodeMembers true fs ++ [125])) =
      some (applyFields {} fs) := by
  rcases encodeMembers_true fs with ⟨h1, h2⟩ | ⟨k, v, post, h1, h2, h3, h4, h5⟩
  · rw [h1, h2]
    rfl
  · have hkv := h (k, v) h2
    have hpost : ∀ kv ∈ post, PlainKey kv.1 ∧ ValidString kv.2 :=
      fun kv hkv => h kv (h3 kv hkv)
    rw [h4, h5]
    simp only [jsonUnmarshal, List.cons_append, List.append_assoc,
      decodeMember_encode k v _ _ hkv.1 hkv.2]
    rw [decodeTail_encodeMembers post hpost _ _ [] (by simp)]


/-- The seven JSON keys of `types.AuthConfig` are plain. -/
theorem plainKey_authConfigFields (a : AuthConfig) :
    ∀ kv ∈ authConfigFields a, PlainKey kv.1 := by
  have k1 : PlainKey [117, 115, 101, 114, 110, 97, 109, 101] :=
    ⟨by decide, by decide, by decide⟩
  have k2 : PlainKey [112, 97, 115, 115, 119, 111, 114, 100] :=
    ⟨by decide, by decide, by decide⟩
  have k3 : PlainKey [97, 117, 116, 104] :=
    ⟨by decide, by decide, by decide⟩
  have k4 : PlainKey [101, 109, 97, 105, 108] :=
    ⟨by decide, by decide, by decide⟩
  have k5 : PlainKey [115, 101, 114, 118, 101, 114, 97, 100, 100, 114, 101, 115, 115] :=
    ⟨by decide, by decide, by decide⟩
  have k6 : PlainKey [105, 100, 101, 110, 116, 105, 116, 121, 116, 111, 107, 101, 110] :=
    ⟨by decide, by decide, by decide⟩
  have k7 : PlainKey [114, 101, 103, 105, 115, 116, 114, 121, 116, 111, 107, 101, 110] :=
    ⟨by decide, by decide, by decide⟩
  intro kv hkv
  simp only [authConfigFields, List.mem_cons, List.mem_singleton,
    List.not_mem_nil, or_false] at hkv
  rcases hkv with rfl | rfl | rfl | rfl | rfl | rfl | rfl
  · exact k1
  · exact k2
  · exact k3
  · exact k4
  · exact k5
  · exact k6
  · exact k7

/-- One step of `applyFields`. -/
theorem applyFields_cons (a0 : AuthConfig) (k v : Bytes)
    (fs : List (Bytes × Bytes)) :
    applyFields a0 ((k, v) :: fs) =
      applyFields (if v = [] then a0 else setField a0 k v) fs := by
  by_cases hv : v = [] <;> simp only [applyFields, hv, if_true, if_false]

/-- Storing the non-empty fields of `a` into the zero value gives `a`. -/
theorem applyFields_authConfigFields (a : AuthConfig) :
    applyFields {} (authConfigFields a) = a := by
  have f1 : ∀ (a0 : AuthConfig) (v : Bytes), a0.Username = [] →
      (if v = [] then a0 else setField a0 [117, 115, 101, 114, 110, 97, 109, 101] v) =
        { a0 with Username := v } := by
    intro a0 v h
    by_cases hv : v = []
    · subst hv
      rw [if_pos rfl, ← h]
    · rw [if_neg hv]
      rfl
  have f2 : ∀ (a0 : AuthConfig) (v : Bytes), a0.Password = [] →
      (if v = [] then a0 else setField a0 [112, 97, 115, 115, 119, 111, 114, 100] v) =
        { a0 with Password := v } := by
    intro a0 v h
    by_cases hv : v = []
    · subst hv
      rw [if_pos rfl, ← h]
    · rw [if_neg hv]
      rfl
  have f3 : ∀ (a0 : AuthConfig) (v : Bytes), a0.Auth = [] →
      (if v = [] then a0 else setField a0 [97, 117, 116, 104] v) =
        { a0 with Auth := v } := by
    intro a0 v h
    by_cases hv : v = []
    · subst hv
      rw [if_pos rfl, ← h]
    · rw [if_neg hv]
      rfl
  have f4 : ∀ (a0 : AuthConfig) (v : Bytes), a0.Email = [] →
      (if v = [] then a0 else setField a0 [101, 109, 97, 105, 108] v) =
        { a0 with Email := v } := by
    intro a0 v h
    by_cases hv : v = []
    · subst hv
      rw [if_pos rfl, ← h]
    · rw [if_neg hv]
      rfl
  have f5 : ∀ (a0 : AuthConfig) (v : Bytes), a0.ServerAddress = [] →
      (if v = [] then a0 else setField a0 [115, 101, 114, 118, 101, 114, 97, 100, 100, 114, 101, 115, 115] v) =
        { a0 with ServerAddress := v } := by
    intro a0 v h
    by_cases hv : v = []
    · subst hv
      rw [if_pos rfl, ← h]
    · rw [if_neg hv]
      rfl
  have f6 : ∀ (a0 : AuthConfig) (v : Bytes), a0.IdentityToken = [] →
      (if v = [] then a0 else setField a0 [105, 100, 101, 110, 116, 105, 116, 121, 116, 111, 107, 101, 110] v) =
        { a0 with IdentityToken := v } := by
    intro a0 v h
    by_cases hv : v = []
    · subst hv
      rw [if_pos rfl, ← h]
    · rw [if_neg hv]
      rfl
  have f7 : ∀ (a0 : AuthConfig) (v : Bytes), a0.RegistryToken = [] →
      (if v = [] then a0 else setField a0 [114, 101, 103, 105, 115, 116, 114, 121, 116, 111, 107, 101, 110] v) =
        { a0 with RegistryToken := v } := by
    intro a0 v h
    by_cases hv : v = []
    · subst hv
      rw [if_pos rfl, ← h]
    · rw [if_neg hv]
      rfl
  simp only [authConfigFields, applyFields_cons]
  rw [f1 _ _ rfl, f2 _ _ rfl, f3 _ _ rfl, f4 _ _ rfl, f5 _ _ rfl, f6 _ _ rfl,
    f7 _ _ rfl]
  rfl


/-- The UTF-8 encoding of a rune consists of bytes. -/
theorem encodeRune_lt (r : Nat) : ∀ x ∈ encodeRune r, x < 256 := by
  intro x hx
  unfold encodeRune at hx
  split_ifs at hx <;>
    simp only [List.mem_cons, List.mem_singleton, List.not_mem_nil,
      or_false] at hx <;>
    omega

/-- A hexadecimal digit is a byte. -/
theorem hexDigit_lt (n : Nat) (h : n < 16) : hexDigit n < 256 := by
  unfold hexDigit
  split_ifs <;> omega

/-- The escape of an ASCII byte consists of bytes. -/
theorem escapeASCII_lt (b : Nat) (hb : b < 0x80) :
    ∀ x ∈ escapeASCII b, x < 256 := by
  intro x hx
  have h1 := hexDigit_lt (b / 16) (by omega)
  have h2 := hexDigit_lt (b % 16) (by omega)
  unfold escapeASCII at hx
  split_ifs at hx <;>
    simp only [List.mem_cons, List.mem_singleton, List.not_mem_nil,
      or_false] at hx <;>
    omega

/-- The JSON text of any string consists of bytes. -/
theorem encodeStringLoop_lt (n : Nat) :
    ∀ s : Bytes, ∀ x ∈ encodeStringLoop n s, x < 256 := by
  induction n with
  | zero => intro s x hx; simp [encodeStringLoop] at hx
  | succ n ih =>
    intro s x hx
    cases s with
    | nil => simp [encodeStringLoop] at hx
    | cons b rest =>
      by_cases hb : b < 0x80
      · simp only [encodeStringLoop, hb, if_true, List.mem_append] at hx
        rcases hx with hx | hx
        · split_ifs at hx
          · simp only [List.mem_singleton] at hx; omega
          · simp only [List.mem_cons] at hx
            rcases hx with hx | hx
            · omega
            · exact escapeASCII_lt b hb x hx
        · exact ih rest x hx
      · simp only [encodeStringLoop, hb, if_false] at hx
        split_ifs at hx with h1 h2
        · simp only [List.mem_append, List.mem_cons, List.mem_singleton,
            List.not_mem_nil, or_false] at hx
          rcases hx with hx | hx
          · omega
          · exact ih _ x hx
        · have hh := hexDigit_lt ((decodeRune (b :: rest)).1 % 16) (by omega)
          simp only [List.mem_append, List.mem_cons, List.mem_singleton,
            List.not_mem_nil, or_false] at hx
          rcases hx with hx | hx
          · omega
          · exact ih _ x hx
        · obtain ⟨p, q, rfl, e2, e3, _⟩ :=
            decodeRune_valid b rest (by omega) h1
          rw [List.mem_append] at hx
          rcases hx with hx | hx
          · rw [e2, List.take_succ_cons, List.take_left, ← e3] at hx
            exact encodeRune_lt _ x hx
          · exact ih _ x hx

/-- The text of the members consists of bytes. -/
theorem encodeMembers_lt (fs : List (Bytes × Bytes)) :
    (∀ kv ∈ fs, ∀ x ∈ kv.1, x < 256) →
    ∀ first, ∀ x ∈ encodeMembers first fs, x < 256 := by
  induction fs with
  | nil => intro _ first x hx; simp [encodeMembers] at hx
  | cons kv fs ih =>
    obtain ⟨k, v⟩ := kv
    intro h first x hx
    have hfs : ∀ kv ∈ fs, ∀ x ∈ kv.1, x < 256 :=
      fun kv hkv => h kv (List.mem_cons_of_mem _ hkv)
    have hk := h (k, v) (List.mem_cons_self _ _)
    by_cases hv : v = []
    · simp only [encodeMembers, hv, if_true] at hx
      exact ih hfs first x hx
    · simp only [encodeMembers, hv, if_false, encodeString, List.mem_append,
        List.mem_cons, List.mem_singleton, List.not_mem_nil, or_false] at hx
      rcases hx with ((hx | (hx | hx) | hx | hx) |
        ((hx | hx) | hx)) | hx
      · split_ifs at hx
        · simp at hx
        · simp only [List.mem_singleton] at hx; omega
      · omega
      · exact hk x hx
      · omega
      · omega
      · omega
      · exact encodeStringLoop_lt _ _ x hx
      · omega
      · exact ih hfs false x hx

/-- The JSON text of any credentials consists of bytes. -/
theorem marshalAuthConfig_lt (a : AuthConfig) :
    ∀ x ∈ marshalAuthConfig a, x < 256 := by
  intro x hx
  simp only [marshalAuthConfig, List.cons_append, List.mem_cons,
    List.mem_append, List.mem_singleton, List.not_mem_nil, or_false] at hx
  rcases hx with hx | hx | hx
  · omega
  · exact encodeMembers_lt _
      (fun kv hkv => (plainKey_authConfigFields a kv hkv).2.2) true x hx
  · omega

/-- JSON-decoding undoes `json.Marshal` on credentials that are valid UTF-8. -/
theorem jsonUnmarshal_marshalAuthConfig (a : AuthConfig)
    (h : ValidAuthConfig a) : jsonUnmarshal (marshalAuthConfig a) = some a := by
  have hf : ∀ kv ∈ authConfigFields a, PlainKey kv.1 ∧ ValidString kv.2 := by
    intro kv hkv
    refine ⟨plainKey_authConfigFields a kv hkv, ?_⟩
    obtain ⟨h1, h2, h3, h4, h5, h6, h7⟩ := h
    simp only [authConfigFields, List.mem_cons, List.mem_singleton,
      List.not_mem_nil, or_false] at hkv
    rcases hkv with rfl | rfl | rfl | rfl | rfl | rfl | rfl <;> assumption
  have e := jsonUnmarshal_members (authConfigFields a) hf
  rw [applyFields_authConfigFields] at e
  exact e

/-- Reading a registry-auth value back gives the credentials it was made from,
when they are valid UTF-8. -/
theorem decodeRegistryAuth_encode (a : AuthConfig) (h : ValidAuthConfig a) :
    decodeRegistryAuth (base64URLEncode (marshalAuthConfig a)) = some a := by
  simp only [decodeRegistryAuth,
    base64URLDecode_encode _ (marshalAuthConfig_lt a),
    jsonUnmarshal_marshalAuthConfig a h]

/-! ### Fuel

The loops of the library models take fuel; the fuel they are given is always
enough. -/

/-- A rune of a non-empty string is at least one byte wide. -/
theorem decodeRune_width_pos (b : Nat) (rest : Bytes) :
    1 ≤ (decodeRune (b :: rest)).2 := by
  by_cases hb : b < 0x80
  · rw [decodeRune_ascii b rest hb]
  · by_cases hv : (decodeRune (b :: rest)).1 = 0xFFFD ∧
        (decodeRune (b :: rest)).2 = 1
    · rw [hv.2]
    · obtain ⟨p, q, _, h2, _, _⟩ := decodeRune_valid b rest (by omega) hv
      omega

/-- The string encoder does not depend on its fuel once the fuel covers the
length of the string: the loop never stops for lack of fuel. -/
theorem encodeStringLoop_fuel (n : Nat) :
    ∀ (m : Nat) (s : Bytes), s.length ≤ n → s.length ≤ m →
      encodeStringLoop n s = encodeStringLoop m s := by
  induction n with
  | zero =>
    intro m s h1 _
    have : s = [] := List.length_eq_zero.mp (by omega)
    subst this
    cases m <;> rfl
  | succ n ih =>
    intro m s h1 h2
    cases s with
    | nil => cases m <;> rfl
    | cons b rest =>
      obtain ⟨j, rfl⟩ : ∃ j, m = j + 1 :=
        ⟨m - 1, by simp only [List.length_cons] at h2; omega⟩
      simp only [List.length_cons] at h1 h2
      have hw := decodeRune_width_pos b rest
      have hd : ((b :: rest).drop (decodeRune (b :: rest)).2).length ≤
          rest.length := by
        rw [List.length_drop, List.length_cons]; omega
      simp only [encodeStringLoop]
      rw [ih j rest (by omega) (by omega),
        ih j _ (by omega) (by omega)]

/-- The frame loop of `stdCopy` does not depend on its fuel once the fuel
exceeds the length of the stream: the loop never stops for lack of fuel. -/
theorem stdCopyLoop_fuel (n : Nat) :
    ∀ (m : Nat) (buf : Bytes) (rerr : Option GoError) (dstout dsterr : Bytes)
      (written : Nat), buf.length < n → buf.length < m →
      stdCopyLoop n buf rerr dstout dsterr written =
        stdCopyLoop m buf rerr dstout dsterr written := by
  induction n with
  | zero => intro m buf _ _ _ _ h; omega
  | succ n ih =>
    intro m buf rerr dstout dsterr written h1 h2
    obtain ⟨j, rfl⟩ : ∃ j, m = j + 1 := ⟨m - 1, by omega⟩
    simp only [stdCopyLoop]
    by_cases h8 : buf.length < 8
    · rw [if_pos h8, if_pos h8]
    · rw [if_neg h8, if_neg h8]
      have hk : (buf.drop (buf.getD 4 0 * 16777216 + buf.getD 5 0 * 65536
          + buf.getD 6 0 * 256 + buf.getD 7 0 + 8)).length < buf.length := by
        rw [List.length_drop]; omega
      rw [ih j _ rerr dstout _ _ (by omega) (by omega),
        ih j _ rerr _ dsterr _ (by omega) (by omega)]

/-! ### The claim -/

/-- C2, as stated, fails: the JSON serialization replaces bytes that are not
valid UTF-8 by U+FFFD, so the registry-auth value does not give back such
credentials.  On the sample engine a login with the one-byte username 255
succeeds and stores it; the value Pull then sends decodes to the username
U+FFFD (bytes 239, 191, 189). -/
theorem Pull_registryAuth_lossy :
    (Login sampleClient sampleWorld [115] [255] [112]).1 = none ∧
    (Login sampleClient sampleWorld [115] [255] [112]).2.1.authConfig =
      { Username := [255], Password := [112], ServerAddress := [115] } ∧
    (Pull (Login sampleClient sampleWorld [115] [255] [112]).2.1
        (Login sampleClient sampleWorld [115] [255] [112]).2.2
        "alpine").2.2.trace =
      [.RegistryLogin
          { Username := [255], Password := [112], ServerAddress := [115] },
        .ImagePull "alpine"
          { RegistryAuth := base64URLEncode (marshalAuthConfig
              { Username := [255], Password := [112],
                ServerAddress := [115] }) },
        .BodyRead 3, .BodyClose] ∧
    decodeRegistryAuth (base64URLEncode (marshalAuthConfig
        { Username := [255], Password := [112], ServerAddress := [115] })) =
      some { Username := [239, 191, 189], Password := [112],
             ServerAddress := [115] } ∧
    ¬ decodeRegistryAuth (base64URLEncode (marshalAuthConfig
        (Login sampleClient sampleWorld [115] [255] [112]).2.1.authConfig)) =
      some (Login sampleClient sampleWorld [115] [255] [112]).2.1.authConfig := by
  refine ⟨rfl, rfl, rfl, by decide, by decide⟩

/-- C2, amended: the RegistryAuth value of the ImagePull request Pull sends is
the URL-safe base64 encoding of the JSON serialization of the stored
credentials; base64url-decoding it gives that JSON text back; when the stored
credentials are valid UTF-8, JSON-decoding then gives back exactly the stored
credentials, so after a successful Login with valid UTF-8 arguments exactly
that username, password and server address; for a client on which no Login
has succeeded the value is `e30=`, the encoding of the JSON object without
fields. -/
theorem Pull_registryAuth (c : Client C H N S σ) (w : World C H N S σ)
    (imageRef : String) :
    (∃ rest, (Pull c w imageRef).2.2.trace =
      w.trace ++ .ImagePull imageRef
        { RegistryAuth := base64URLEncode (marshalAuthConfig c.authConfig) }
        :: rest) ∧
    base64URLDecode (base64URLEncode (marshalAuthConfig c.authConfig)) =
      some (marshalAuthConfig c.authConfig) ∧
    (ValidAuthConfig c.authConfig →
      decodeRegistryAuth (base64URLEncode (marshalAuthConfig c.authConfig)) =
        some c.authConfig) ∧
    (∀ server username password body st,
      ValidString server → ValidString username → ValidString password →
      c.Client.RegistryLogin w.state
        { Username := username, Password := password,
          ServerAddress := server } = (.ok body, st) →
      decodeRegistryAuth (base64URLEncode (marshalAuthConfig
          (Login c w server username password).2.1.authConfig)) =
        some { Username := username, Password := password,
               ServerAddress := server }) ∧
    (marshalAuthConfig (NewClient c.Client).authConfig = [123, 125] ∧
      base64URLEncode (marshalAuthConfig (NewClient c.Client).authConfig) =
        [101, 51, 48, 61]) := by
  refine ⟨?_, base64URLDecode_encode _ (marshalAuthConfig_lt _),
    decodeRegistryAuth_encode _, ?_, rfl, rfl⟩
  · rcases h : c.Client.ImagePull w.state imageRef
        { RegistryAuth := base64URLEncode (marshalAuthConfig c.authConfig) }
      with ⟨_ | body, st⟩
    · exact ⟨[], by simp [Pull, jsonMarshal, h]⟩
    · rcases he : body.err with _ | e
      · exact ⟨[.BodyRead body.data.length, .BodyClose], by
          simp [Pull, jsonMarshal, h, ioCopyDiscard, he]⟩
      · exact ⟨[.BodyRead body.data.length, .BodyClose], by
          simp [Pull, jsonMarshal, h, ioCopyDiscard, he]⟩
  · intro server username password body st hs hu hp h
    have hl : (Login c w server username password).2.1.authConfig =
        { Username := username, Password := password,
          ServerAddress := server } := by
      simp [Login, h]
    rw [hl]
    exact decodeRegistryAuth_encode _ ⟨hu, hp, rfl, rfl, hs, rfl, rfl⟩

/-- C2, amended, on the sample engine: stored ASCII credentials, and a login
whose username has a two-byte rune. -/
theorem Pull_registryAuth_witness :
    decodeRegistryAuth (base64URLEncode
        (marshalAuthConfig sampleClientAuth.authConfig)) =
      some { Username := [117], Password := [112], ServerAddress := [115] } ∧
    decodeRegistryAuth (base64URLEncode (marshalAuthConfig
        (Login sampleClient sampleWorld [115] [195, 169] [112]).2.1.authConfig)) =
      some { Username := [195, 169], Password := [112],
             ServerAddress := [115] } :=
  ⟨(Pull_registryAuth sampleClientAuth sampleWorld "alpine").2.2.1
      ⟨rfl, rfl, rfl, rfl, rfl, rfl, rfl⟩,
   (Pull_registryAuth sampleClient sampleWorld "alpine").2.2.2.1
      [115] [195, 169] [112] { Status := "Login Succeeded" } 1
      rfl rfl rfl rfl⟩

end Dockerutils
